import Mathlib

/-!
# StorageCache: a sharded key/value cache with expiration

A shallow embedding of `src/StorageAPI/storage/StorageCache.hpp`.

* `boost::shared_ptr<T>` is `Option T`; the empty pointer is `none`.
* `time_t` is `Int`; the second read by `clock_gettime` is an explicit argument `tv_sec`.
* `std::map<Key, shared_ptr<CacheItem<T>>>` is the list of its entries in iteration order.
  The functions assume, but do not require, that no key occurs twice (`StdMap.unique`).
* `std::vector<shared_ptr<Shard<T>>>` is a list of shards; a shard is mutated through its
  pointer, which is a functional update of the list at the shard's index.
* Code that throws, or whose behaviour is undefined, returns `Except.error`.
* The shard mutex makes every body below one atomic step; the mutex itself is not modelled.
* `FASTCACHE_SHARDSIZE` (256 unless the build overrides it) and the `boost::hash<Key>`
  functor are parameters.
-/

set_option linter.unusedSectionVars false

namespace Storage

/-- Write modes (lines 74-78). -/
inductive fastcache_writemode where
  | FASTCACHE_WRITEMODE_WRITE_ALWAYS
  | FASTCACHE_WRITEMODE_ONLY_WRITE_IF_SET
  | FASTCACHE_WRITEMODE_ONLY_WRITE_IF_NOT_SET
  deriving DecidableEq, Repr

open fastcache_writemode

/-- What a call can raise: `std::out_of_range` (from `vector::at`, `map::at`), the
`StorageCacheObjectLocked` of lines 80-84, and the undefined `% 0`. -/
inductive exception where
  | out_of_range
  | StorageCacheObjectLocked
  | division_by_zero
  deriving DecidableEq, Repr

/-- The pointer type `boost::shared_ptr<T>`: `none` is the empty pointer. -/
abbrev shared_ptr (T : Type) : Type := Option T

/-- Default value of the shard count (lines 61-63). -/
def FASTCACHE_SHARDSIZE_DEFAULT : Nat := 256

/-- CacheItem (lines 93-118): a value and its expiration, 0 meaning none. -/
structure CacheItem (T : Type) where
  data : shared_ptr T
  expiration : Int
  deriving DecidableEq, Repr

/-- Have we expired? (lines 105-114); `tv_sec` is the second the clock returns. -/
def CacheItem.expired {T : Type} (item : CacheItem T) (tv_sec : Int) : Bool :=
  if item.expiration = 0 then false
  else decide (tv_sec > item.expiration)

/-- The entries of a `std::map`, in iteration (ascending key) order. -/
abbrev StdMap (K T : Type) : Type := List (K × CacheItem T)

namespace StdMap

variable {K T : Type} [LinearOrder K]

/-- The type invariant of `std::map`: no key occurs twice. -/
def unique (m : StdMap K T) : Prop := (m.map Prod.fst).Nodup

/-- The call `map.find(id)`: the entry stored for `id`, `none` standing for `end()`. -/
def find (m : StdMap K T) (id : K) : Option (CacheItem T) :=
  match m with
  | [] => none
  | (k, item) :: rest => if k = id then some item else find rest id

/-- The call `map.at(id)`: throws `std::out_of_range` when `id` is not there. -/
def at_ (m : StdMap K T) (id : K) : Except exception (CacheItem T) :=
  match find m id with
  | some item => .ok item
  | none => .error exception.out_of_range

/-- Where `insert` puts a new entry: before the first larger key. -/
def place (id : K) (item : CacheItem T) : StdMap K T → StdMap K T
  | [] => [(id, item)]
  | (k, v) :: rest =>
    if id < k then (id, item) :: (k, v) :: rest else (k, v) :: place id item rest

/-- The call `map.insert(pair(id, item))`: when `id` is already a key nothing is written
and `second` is false. -/
def insert (m : StdMap K T) (id : K) (item : CacheItem T) : StdMap K T × Bool :=
  match find m id with
  | some _ => (m, false)
  | none => (place id item m, true)

/-- The call `map.erase(id)`: removes the entries of key `id` and returns how many. -/
def erase (m : StdMap K T) (id : K) : StdMap K T × Nat :=
  (m.filter (fun e => decide (e.1 ≠ id)), (m.filter (fun e => decide (e.1 = id))).length)

/-- The call `map.size()`. -/
def size (m : StdMap K T) : Nat := m.length

end StdMap

/-- Shard (lines 121-140): the map; the guard is the atomicity of the bodies below. -/
structure Shard (K T : Type) where
  map : StdMap K T
  deriving DecidableEq, Repr

/-- The loop of `cull_expired_keys` over the entries from the iterator on
(lines 128-135): an expired entry is erased, any other is stepped over. Every test reads
the clock; one loop is taken to run within the one second `tv_sec`. -/
def Shard.cull_loop {K T : Type} (tv_sec : Int) : StdMap K T → StdMap K T
  | [] => []
  | (k, item) :: rest =>
    if item.expired tv_sec then Shard.cull_loop tv_sec rest
    else (k, item) :: Shard.cull_loop tv_sec rest

/-- Shard::cull_expired_keys (lines 126-136). -/
def Shard.cull_expired_keys {K T : Type} (shard : Shard K T) (tv_sec : Int) : Shard K T :=
  { map := Shard.cull_loop tv_sec shard.map }

/-- StorageCache (lines 87-352): the vector of shards. -/
structure StorageCache (K T : Type) where
  shards : List (Shard K T)
  deriving DecidableEq, Repr

namespace StorageCache

variable {K T : Type} [LinearOrder K]

/-- The constructor (lines 149-162): `FASTCACHE_SHARDSIZE` empty shards. -/
def new (FASTCACHE_SHARDSIZE : Nat) : StorageCache K T :=
  { shards := List.replicate FASTCACHE_SHARDSIZE { map := [] } }

/-- calc_index (lines 348-351): `hash(id) % FASTCACHE_SHARDSIZE`. -/
def calc_index (hash : K → Nat) (FASTCACHE_SHARDSIZE : Nat) (id : K) : Except exception Nat :=
  if FASTCACHE_SHARDSIZE = 0 then .error exception.division_by_zero
  else .ok (hash id % FASTCACHE_SHARDSIZE)

/-- The common opening of `set`, `del` and `get`:
`index = calc_index(id); shard = shards.at(index);` followed by a body that runs on the
locked shard and leaves a result and the shard as it then is. -/
def locked {α : Type} (hash : K → Nat) (FASTCACHE_SHARDSIZE : Nat) (c : StorageCache K T)
    (id : K) (body : Shard K T → α × Shard K T) : Except exception (α × StorageCache K T) :=
  match calc_index hash FASTCACHE_SHARDSIZE id with
  | .error e => .error e
  | .ok index =>
    match c.shards[index]? with
    | none => .error exception.out_of_range
    | some shard =>
      let r := body shard
      .ok (r.1, { shards := c.shards.set index r.2 })

/-- The insertion of `set` (lines 217-230) on the map the lines before it left. -/
def set_insert (id : K) (item : CacheItem T) (mode : fastcache_writemode)
    (map : StdMap K T) : Nat × Shard K T :=
  let result := StdMap.insert map id item
  if result.2 = false then
    -- Key exists, so nothing was written
    if mode = FASTCACHE_WRITEMODE_ONLY_WRITE_IF_NOT_SET then
      (0, { map := result.1 })
    else
      -- Erase and re-write
      (1, { map := (StdMap.insert (StdMap.erase result.1 id).1 id item).1 })
  else
    (1, { map := result.1 })

/-- The body of `set` under the lock (lines 208-230). -/
def set_body (id : K) (item : CacheItem T) (mode : fastcache_writemode)
    (shard : Shard K T) : Nat × Shard K T :=
  if mode = FASTCACHE_WRITEMODE_ONLY_WRITE_IF_SET then
    match shard.map.find id with
    | none =>
      -- Key not found.  Return.
      (0, shard)
    | some _ =>
      -- Erase it so we can set it below
      set_insert id item mode (shard.map.erase id).1
  else
    set_insert id item mode shard.map

/-- StorageCache::set (lines 198-231); the defaults of the source are `expiration = 0` and
`mode = FASTCACHE_WRITEMODE_WRITE_ALWAYS`. -/
def set (hash : K → Nat) (FASTCACHE_SHARDSIZE : Nat) (c : StorageCache K T) (id : K)
    (val : shared_ptr T) (expiration : Int) (mode : fastcache_writemode) :
    Except exception (Nat × StorageCache K T) :=
  locked hash FASTCACHE_SHARDSIZE c id (set_body id { data := val, expiration := expiration } mode)

/-- The body of `del` under the lock (line 253). -/
def del_body (id : K) (shard : Shard K T) : Nat × Shard K T :=
  let r := shard.map.erase id
  (r.2, { map := r.1 })

/-- StorageCache::del (lines 247-254). -/
def del (hash : K → Nat) (FASTCACHE_SHARDSIZE : Nat) (c : StorageCache K T) (id : K) :
    Except exception (Nat × StorageCache K T) :=
  locked hash FASTCACHE_SHARDSIZE c id (del_body id)

/-- The body of `get` under the lock (lines 275-294), `FASTCACHE_MUTABLE_DATA` not
defined. -/
def get_body (id : K) (tv_sec : Int) (shard : Shard K T) : shared_ptr T × Shard K T :=
  match shard.map.at_ id with
  | .error _ =>
    -- Return empty since it wasn't found
    (none, shard)
  | .ok item =>
    if item.expired tv_sec then
      -- It's expired.  Erase it and return empty.
      (none, { map := (shard.map.erase id).1 })
    else
      (item.data, shard)

/-- StorageCache::get (lines 264-295). -/
def get (hash : K → Nat) (FASTCACHE_SHARDSIZE : Nat) (c : StorageCache K T) (id : K)
    (tv_sec : Int) : Except exception (shared_ptr T × StorageCache K T) :=
  locked hash FASTCACHE_SHARDSIZE c id (get_body id tv_sec)

/-- StorageCache::exists (lines 238-240): `(this->get(id)) ? 1 : 0`. -/
def exists_ (hash : K → Nat) (FASTCACHE_SHARDSIZE : Nat) (c : StorageCache K T) (id : K)
    (tv_sec : Int) : Except exception (Nat × StorageCache K T) :=
  match get hash FASTCACHE_SHARDSIZE c id tv_sec with
  | .error e => .error e
  | .ok r => .ok ((if r.1.isSome then 1 else 0), r.2)

/-- StorageCache::metrics (lines 176-188). -/
def metrics (c : StorageCache K T) : Nat :=
  c.shards.foldl (fun total_size shard => total_size + shard.map.size) 0

/-- StorageCache::keySet (lines 297-309); `push_back` appends. -/
def keySet (c : StorageCache K T) : List K :=
  c.shards.foldl
    (fun _keyset shard => shard.map.foldl (fun _keyset entry => _keyset ++ [entry.1]) _keyset) []

/-- One pass of the `for` loop of `curate` (lines 324-331): every shard is culled in turn. -/
def curate_sweep (c : StorageCache K T) (tv_sec : Int) : StorageCache K T :=
  { shards := c.shards.map (fun shard => shard.cull_expired_keys tv_sec) }

/-- One iteration of the `for` loop of `curate` (lines 325-330): the shard at `index` is
culled under its lock. -/
def curate_shard (c : StorageCache K T) (index : Nat) (tv_sec : Int) : StorageCache K T :=
  match c.shards[index]? with
  | none => c
  | some shard => { shards := c.shards.set index (shard.cull_expired_keys tv_sec) }

/-- A call on the cache, or a step of the curator, with the second the clock shows. -/
inductive Op (K T : Type) where
  | set (id : K) (val : shared_ptr T) (expiration : Int) (mode : fastcache_writemode)
  | get (id : K) (tv_sec : Int)
  | exists_ (id : K) (tv_sec : Int)
  | del (id : K)
  | keySet
  | metrics
  | curate_sweep (tv_sec : Int)
  | curate_shard (index : Nat) (tv_sec : Int)

/-- Whether the call is a `set` or a `del` of the key `k`. -/
def Op.writes (k : K) : Op K T → Bool
  | .set id _ _ _ => decide (id = k)
  | .del id => decide (id = k)
  | _ => false

/-- The cache after one call. -/
def Op.run (hash : K → Nat) (FASTCACHE_SHARDSIZE : Nat) (c : StorageCache K T) :
    Op K T → Except exception (StorageCache K T)
  | .set id val expiration mode =>
    match StorageCache.set hash FASTCACHE_SHARDSIZE c id val expiration mode with
    | .error e => .error e
    | .ok r => .ok r.2
  | .get id tv_sec =>
    match StorageCache.get hash FASTCACHE_SHARDSIZE c id tv_sec with
    | .error e => .error e
    | .ok r => .ok r.2
  | .exists_ id tv_sec =>
    match StorageCache.exists_ hash FASTCACHE_SHARDSIZE c id tv_sec with
    | .error e => .error e
    | .ok r => .ok r.2
  | .del id =>
    match StorageCache.del hash FASTCACHE_SHARDSIZE c id with
    | .error e => .error e
    | .ok r => .ok r.2
  | .keySet => .ok c
  | .metrics => .ok c
  | .curate_sweep tv_sec => .ok (StorageCache.curate_sweep c tv_sec)
  | .curate_shard index tv_sec => .ok (StorageCache.curate_shard c index tv_sec)

/-- The cache after a sequence of calls, the first call first. -/
def run_all (hash : K → Nat) (FASTCACHE_SHARDSIZE : Nat) :
    List (Op K T) → StorageCache K T → Except exception (StorageCache K T)
  | [], c => .ok c
  | op :: ops, c =>
    match op.run hash FASTCACHE_SHARDSIZE c with
    | .error e => .error e
    | .ok c1 => run_all hash FASTCACHE_SHARDSIZE ops c1

/-- The entry the shard of `id` holds for `id`:
`shards.at(calc_index(id))->map.find(id)`, `none` when there is none. -/
def stored (hash : K → Nat) (FASTCACHE_SHARDSIZE : Nat) (c : StorageCache K T) (id : K) :
    Option (CacheItem T) :=
  match c.shards[hash id % FASTCACHE_SHARDSIZE]? with
  | none => none
  | some shard => shard.map.find id

/-- The states a freshly constructed cache can come to. -/
def Reachable (hash : K → Nat) (FASTCACHE_SHARDSIZE : Nat) (c : StorageCache K T) : Prop :=
  ∃ ops : List (Op K T),
    run_all hash FASTCACHE_SHARDSIZE ops (StorageCache.new FASTCACHE_SHARDSIZE) = .ok c

/-- The keys of every shard are pairwise different and route to that shard. -/
def Routed (hash : K → Nat) (FASTCACHE_SHARDSIZE : Nat) (c : StorageCache K T) : Prop :=
  c.shards.length = FASTCACHE_SHARDSIZE ∧
  ∀ (i : Nat) (shard : Shard K T), c.shards[i]? = some shard →
    shard.map.unique ∧ ∀ e ∈ shard.map, hash e.1 % FASTCACHE_SHARDSIZE = i

/-- The body of `get` under the lock (lines 275-294) when `FASTCACHE_MUTABLE_DATA` is
defined. `data_unique` is what `item->data.unique()` returns at line 289. The result is the
pointer returned or the exception thrown, and the shard as it then is. -/
def get_body_MUTABLE_DATA (id : K) (tv_sec : Int) (data_unique : Bool) (shard : Shard K T) :
    Except exception (shared_ptr T) × Shard K T :=
  match shard.map.at_ id with
  | .error _ =>
    -- Return empty since it wasn't found
    (.ok none, shard)
  | .ok item =>
    if item.expired tv_sec then
      -- It's expired.  Erase it and return empty.
      (.ok none, { map := (shard.map.erase id).1 })
    else if data_unique = false then
      -- make sure no one else is using this data!
      (.error exception.StorageCacheObjectLocked, shard)
    else
      (.ok item.data, shard)

/-- StorageCache::get (lines 264-295) when `FASTCACHE_MUTABLE_DATA` is defined: the pointer
returned or the exception thrown, and the cache as it then is. -/
def get_MUTABLE_DATA (hash : K → Nat) (FASTCACHE_SHARDSIZE : Nat) (c : StorageCache K T)
    (id : K) (tv_sec : Int) (data_unique : Bool) :
    Except exception (shared_ptr T) × StorageCache K T :=
  match calc_index hash FASTCACHE_SHARDSIZE id with
  | .error e => (.error e, c)
  | .ok index =>
    match c.shards[index]? with
    | none => (.error exception.out_of_range, c)
    | some shard =>
      let r := get_body_MUTABLE_DATA id tv_sec data_unique shard
      (r.1, { shards := c.shards.set index r.2 })

end StorageCache

/-! ## A concrete cache -/

/-- A hash on numbers: the number itself. -/
def demo_hash : Nat → Nat := fun k => k

/-- A cache of 256 shards whose shard 5 holds key 5, without expiration, and key 261,
expiring after second 100. -/
def demo_cache : StorageCache Nat Nat :=
  { shards := (List.replicate 256 { map := [] }).set 5
      { map := [(5, { data := some 50, expiration := 0 }),
                (261, { data := some 61, expiration := 100 })] } }

/-! ## The map -/

namespace StdMap

variable {K T : Type} [LinearOrder K]

theorem find_eq_none_iff (m : StdMap K T) (id : K) :
    find m id = none ↔ ∀ e ∈ m, e.1 ≠ id := by
  induction m with
  | nil => simp [find]
  | cons a rest ih =>
    obtain ⟨k, item⟩ := a
    by_cases h : k = id
    · simp [find, h]
    · simp [find, h, ih]

theorem mem_of_find_eq_some {m : StdMap K T} {id : K} {item : CacheItem T}
    (h : find m id = some item) : (id, item) ∈ m := by
  induction m with
  | nil => simp [find] at h
  | cons a rest ih =>
    obtain ⟨k, v⟩ := a
    by_cases hk : k = id
    · simp [find, hk] at h
      simp [hk, h]
    · simp [find, hk] at h
      exact List.mem_cons_of_mem _ (ih h)

theorem filter_ne_of_find_none {m : StdMap K T} {id : K} (h : find m id = none) :
    m.filter (fun e => decide (e.1 ≠ id)) = m := by
  rw [List.filter_eq_self]
  intro e he
  simpa using (find_eq_none_iff m id).1 h e he

theorem filter_eq_of_find_none {m : StdMap K T} {id : K} (h : find m id = none) :
    m.filter (fun e => decide (e.1 = id)) = [] := by
  rw [List.filter_eq_nil_iff]
  intro e he
  simpa using (find_eq_none_iff m id).1 h e he

theorem find_filter_ne_self (m : StdMap K T) (id : K) :
    find (m.filter (fun e => decide (e.1 ≠ id))) id = none := by
  rw [find_eq_none_iff]
  intro e he
  simpa using (List.mem_filter.1 he).2

theorem find_filter_ne_other (m : StdMap K T) {id k : K} (hk : k ≠ id) :
    find (m.filter (fun e => decide (e.1 ≠ id))) k = find m k := by
  induction m with
  | nil => rfl
  | cons a rest ih =>
    obtain ⟨k1, v⟩ := a
    by_cases h1 : k1 = id
    · have h2 : ¬ k1 = k := fun h => hk (h ▸ h1)
      rw [List.filter_cons_of_neg (by simpa using h1)]
      simp only [find, h2, if_false]
      exact ih
    · rw [List.filter_cons_of_pos (by simpa using h1)]
      by_cases h2 : k1 = k
      · simp only [find, h2, if_true]
      · simp only [find, h2, if_false]
        exact ih

theorem place_perm (id : K) (item : CacheItem T) (m : StdMap K T) :
    (place id item m).Perm ((id, item) :: m) := by
  induction m with
  | nil => simp [place]
  | cons a rest ih =>
    obtain ⟨k, v⟩ := a
    by_cases h : id < k
    · simp [place, h]
    · simp only [place, h, if_false]
      exact (List.Perm.cons _ ih).trans (List.Perm.swap _ _ _)

theorem find_place_self {id : K} (item : CacheItem T) {m : StdMap K T}
    (h : find m id = none) : find (place id item m) id = some item := by
  induction m with
  | nil => simp [place, find]
  | cons a rest ih =>
    obtain ⟨k, v⟩ := a
    by_cases hk : k = id
    · simp [find, hk] at h
    · have hr : find rest id = none := by simpa [find, hk] using h
      by_cases hlt : id < k
      · simp [place, hlt, find]
      · simp [place, hlt, find, hk, ih hr]

theorem find_place_other (id : K) (item : CacheItem T) (m : StdMap K T) {k : K}
    (hk : k ≠ id) : find (place id item m) k = find m k := by
  have hk2 : ¬ id = k := fun h => hk h.symm
  induction m with
  | nil => simp [place, find, hk2]
  | cons a rest ih =>
    obtain ⟨k1, v⟩ := a
    by_cases hlt : id < k1
    · simp only [place, hlt, if_true, find, hk2, if_false]
    · simp only [place, hlt, if_false, find]
      by_cases h1 : k1 = k
      · simp only [h1, if_true]
      · simp only [h1, if_false]
        exact ih

theorem filter_eq_place {id : K} (item : CacheItem T) {m : StdMap K T}
    (h : find m id = none) :
    (place id item m).filter (fun e => decide (e.1 = id)) = [(id, item)] := by
  have hperm := (place_perm id item m).filter (fun e => decide (e.1 = id))
  rw [List.filter_cons_of_pos (by simp), filter_eq_of_find_none h] at hperm
  exact List.perm_singleton.1 hperm

theorem filter_ne_place (id : K) (item : CacheItem T) (m : StdMap K T) :
    (place id item m).filter (fun e => decide (e.1 ≠ id)) =
      m.filter (fun e => decide (e.1 ≠ id)) := by
  induction m with
  | nil => simp [place]
  | cons a rest ih =>
    obtain ⟨k, v⟩ := a
    by_cases hlt : id < k
    · simp only [place, hlt, if_true]
      rw [List.filter_cons_of_neg (by simp)]
    · simp only [place, hlt, if_false]
      by_cases hk : k = id
      · rw [List.filter_cons_of_neg (by simpa using hk),
          List.filter_cons_of_neg (by simpa using hk)]
        exact ih
      · rw [List.filter_cons_of_pos (by simpa using hk),
          List.filter_cons_of_pos (by simpa using hk), ih]

theorem insert_of_find_none {m : StdMap K T} {id : K} (item : CacheItem T)
    (h : find m id = none) : insert m id item = (place id item m, true) := by
  simp only [insert, h]

theorem insert_of_find_some {m : StdMap K T} {id : K} (item : CacheItem T) {old : CacheItem T}
    (h : find m id = some old) : insert m id item = (m, false) := by
  simp only [insert, h]

theorem insert_erase (m : StdMap K T) (id : K) (item : CacheItem T) :
    insert (erase m id).1 id item =
      (place id item (m.filter (fun e => decide (e.1 ≠ id))), true) :=
  insert_of_find_none item (find_filter_ne_self m id)

theorem unique_filter {m : StdMap K T} (h : unique m) (p : K × CacheItem T → Bool) :
    unique (m.filter p) :=
  List.Nodup.sublist ((List.filter_sublist m).map Prod.fst) h

theorem unique_place {id : K} (item : CacheItem T) {m : StdMap K T} (h : unique m)
    (hid : find m id = none) : unique (place id item m) := by
  have hperm := (place_perm id item m).map Prod.fst
  refine (List.Perm.nodup_iff hperm).2 ?_
  simp only [List.map_cons, List.nodup_cons]
  refine ⟨?_, h⟩
  intro hmem
  obtain ⟨e, he, hfst⟩ := List.mem_map.1 hmem
  exact (find_eq_none_iff m id).1 hid e he hfst

theorem length_filter_eq_of_unique {m : StdMap K T} (h : unique m) (id : K) :
    (m.filter (fun e => decide (e.1 = id))).length = if (find m id).isSome then 1 else 0 := by
  induction m with
  | nil => simp [find]
  | cons a rest ih =>
    obtain ⟨k, v⟩ := a
    have hu : unique rest := (List.nodup_cons.1 h).2
    by_cases hk : k = id
    · have hnot : find rest id = none := by
        rw [find_eq_none_iff]
        intro e he hfst
        apply (List.nodup_cons.1 h).1
        exact List.mem_map.2 ⟨e, he, by simp [hfst, hk]⟩
      rw [List.filter_cons_of_pos (by simpa using hk), filter_eq_of_find_none hnot]
      simp [find, hk]
    · rw [List.filter_cons_of_neg (by simpa using hk), ih hu]
      simp only [find, hk, if_false]

end StdMap

/-! ## Routing and the bodies under the lock -/

namespace StorageCache

variable {K T : Type} [LinearOrder K]

theorem set_shard_self {l : List (Shard K T)} {i : Nat} {shard : Shard K T}
    (h : l[i]? = some shard) : l.set i shard = l := by
  apply List.ext_getElem?
  intro j
  by_cases hij : i = j
  · subst hij
    rw [List.getElem?_set]
    have hi : i < l.length := (List.getElem?_eq_some.1 h).1
    simp [hi, h]
  · rw [List.getElem?_set_ne hij]

theorem shard_at (hash : K → Nat) {FASTCACHE_SHARDSIZE : Nat} (c : StorageCache K T)
    (hN : 0 < FASTCACHE_SHARDSIZE) (hlen : c.shards.length = FASTCACHE_SHARDSIZE) (id : K) :
    ∃ shard, c.shards[hash id % FASTCACHE_SHARDSIZE]? = some shard := by
  have hlt : hash id % FASTCACHE_SHARDSIZE < c.shards.length := by
    rw [hlen]; exact Nat.mod_lt _ hN
  exact ⟨c.shards[hash id % FASTCACHE_SHARDSIZE], List.getElem?_eq_getElem hlt⟩

theorem locked_eq {α : Type} (hash : K → Nat) {FASTCACHE_SHARDSIZE : Nat} (c : StorageCache K T)
    (hN : 0 < FASTCACHE_SHARDSIZE) (id : K) {shard : Shard K T}
    (hs : c.shards[hash id % FASTCACHE_SHARDSIZE]? = some shard)
    (body : Shard K T → α × Shard K T) :
    locked hash FASTCACHE_SHARDSIZE c id body =
      .ok ((body shard).1,
        { shards := c.shards.set (hash id % FASTCACHE_SHARDSIZE) (body shard).2 }) := by
  have h0 : FASTCACHE_SHARDSIZE ≠ 0 := Nat.pos_iff_ne_zero.1 hN
  simp only [locked, calc_index, h0, if_false, hs]

theorem locked_eq_same {α : Type} (hash : K → Nat) {FASTCACHE_SHARDSIZE : Nat}
    (c : StorageCache K T) (hN : 0 < FASTCACHE_SHARDSIZE) (id : K) {shard : Shard K T}
    (hs : c.shards[hash id % FASTCACHE_SHARDSIZE]? = some shard)
    (body : Shard K T → α × Shard K T) (hb : (body shard).2 = shard) :
    locked hash FASTCACHE_SHARDSIZE c id body = .ok ((body shard).1, c) := by
  rw [locked_eq hash c hN id hs, hb, set_shard_self hs]

theorem set_body_always (id : K) (item : CacheItem T) (shard : Shard K T) :
    set_body id item FASTCACHE_WRITEMODE_WRITE_ALWAYS shard =
      (1, { map := StdMap.place id item (shard.map.filter (fun e => decide (e.1 ≠ id))) }) := by
  cases hf : StdMap.find shard.map id with
  | none =>
    simp only [set_body, set_insert, StdMap.insert_of_find_none item hf,
      StdMap.filter_ne_of_find_none hf]
    simp
  | some old =>
    simp only [set_body, set_insert, StdMap.insert_of_find_some item hf, StdMap.insert_erase]
    simp

theorem set_body_if_set_absent (id : K) (item : CacheItem T) {shard : Shard K T}
    (hf : StdMap.find shard.map id = none) :
    set_body id item FASTCACHE_WRITEMODE_ONLY_WRITE_IF_SET shard = (0, shard) := by
  simp only [set_body, hf, if_true]

theorem set_body_if_set_present (id : K) (item : CacheItem T) {shard : Shard K T}
    {old : CacheItem T} (hf : StdMap.find shard.map id = some old) :
    set_body id item FASTCACHE_WRITEMODE_ONLY_WRITE_IF_SET shard =
      (1, { map := StdMap.place id item (shard.map.filter (fun e => decide (e.1 ≠ id))) }) := by
  simp only [set_body, set_insert, hf, if_true, StdMap.insert_erase]
  simp

theorem set_body_if_not_set_absent (id : K) (item : CacheItem T) {shard : Shard K T}
    (hf : StdMap.find shard.map id = none) :
    set_body id item FASTCACHE_WRITEMODE_ONLY_WRITE_IF_NOT_SET shard =
      (1, { map := StdMap.place id item shard.map }) := by
  simp only [set_body, set_insert, StdMap.insert_of_find_none item hf]
  simp

theorem set_body_if_not_set_present (id : K) (item : CacheItem T) {shard : Shard K T}
    {old : CacheItem T} (hf : StdMap.find shard.map id = some old) :
    set_body id item FASTCACHE_WRITEMODE_ONLY_WRITE_IF_NOT_SET shard = (0, shard) := by
  simp only [set_body, set_insert, StdMap.insert_of_find_some item hf]
  simp

theorem get_body_absent (id : K) (tv_sec : Int) {shard : Shard K T}
    (hf : StdMap.find shard.map id = none) :
    get_body id tv_sec shard = (none, shard) := by
  simp [get_body, StdMap.at_, hf]

theorem get_body_expired (id : K) (tv_sec : Int) {shard : Shard K T} {item : CacheItem T}
    (hf : StdMap.find shard.map id = some item) (he : item.expired tv_sec = true) :
    get_body id tv_sec shard =
      (none, { map := shard.map.filter (fun e => decide (e.1 ≠ id)) }) := by
  simp only [get_body, StdMap.at_, hf, he, StdMap.erase, if_true]

theorem get_body_live (id : K) (tv_sec : Int) {shard : Shard K T} {item : CacheItem T}
    (hf : StdMap.find shard.map id = some item) (he : item.expired tv_sec = false) :
    get_body id tv_sec shard = (item.data, shard) := by
  simp [get_body, StdMap.at_, hf, he]

theorem written_entry (id : K) (item : CacheItem T) (m : StdMap K T) :
    StdMap.find (StdMap.place id item (m.filter (fun e => decide (e.1 ≠ id)))) id = some item ∧
    (StdMap.place id item (m.filter (fun e => decide (e.1 ≠ id)))).filter
        (fun e => decide (e.1 = id)) = [(id, item)] ∧
    (StdMap.place id item (m.filter (fun e => decide (e.1 ≠ id)))).filter
        (fun e => decide (e.1 ≠ id)) = m.filter (fun e => decide (e.1 ≠ id)) := by
  refine ⟨StdMap.find_place_self item (StdMap.find_filter_ne_self m id),
    StdMap.filter_eq_place item (StdMap.find_filter_ne_self m id), ?_⟩
  rw [StdMap.filter_ne_place, List.filter_filter]
  simp

theorem set_written (hash : K → Nat) {FASTCACHE_SHARDSIZE : Nat} (c : StorageCache K T)
    (hN : 0 < FASTCACHE_SHARDSIZE) (id : K) (val : shared_ptr T) (expiration : Int)
    (mode : fastcache_writemode) {shard : Shard K T}
    (hs : c.shards[hash id % FASTCACHE_SHARDSIZE]? = some shard)
    (hb : set_body id { data := val, expiration := expiration } mode shard =
      (1, { map := StdMap.place id { data := val, expiration := expiration }
                      (shard.map.filter (fun e => decide (e.1 ≠ id))) })) :
    ∃ c1 shard1, set hash FASTCACHE_SHARDSIZE c id val expiration mode = .ok (1, c1) ∧
      c1.shards = c.shards.set (hash id % FASTCACHE_SHARDSIZE) shard1 ∧
      c1.shards[hash id % FASTCACHE_SHARDSIZE]? = some shard1 ∧
      shard1.map.find id = some { data := val, expiration := expiration } ∧
      shard1.map.filter (fun e => decide (e.1 = id)) =
        [(id, { data := val, expiration := expiration })] ∧
      shard1.map.filter (fun e => decide (e.1 ≠ id)) =
        shard.map.filter (fun e => decide (e.1 ≠ id)) := by
  have hi : hash id % FASTCACHE_SHARDSIZE < c.shards.length :=
    (List.getElem?_eq_some.1 hs).1
  obtain ⟨h1, h2, h3⟩ := written_entry id { data := val, expiration := expiration } shard.map
  refine ⟨_, _, ?_, rfl, ?_, h1, h2, h3⟩
  · rw [set, locked_eq hash c hN id hs, hb]
  · simp [hi]

/-! ## What a call leaves of the other keys -/

theorem cull_loop_eq_filter (tv_sec : Int) (m : StdMap K T) :
    Shard.cull_loop tv_sec m = m.filter (fun e => !e.2.expired tv_sec) := by
  induction m with
  | nil => rfl
  | cons a rest ih =>
    obtain ⟨k, item⟩ := a
    cases he : item.expired tv_sec with
    | true => simp [Shard.cull_loop, he, ih]
    | false => simp [Shard.cull_loop, he, ih]

theorem find_cull_loop_of_live {m : StdMap K T} {k : K} {item : CacheItem T} (tv_sec : Int)
    (hf : StdMap.find m k = some item) (he : item.expired tv_sec = false) :
    StdMap.find (Shard.cull_loop tv_sec m) k = some item := by
  induction m with
  | nil => simp [StdMap.find] at hf
  | cons a rest ih =>
    obtain ⟨k1, v⟩ := a
    by_cases hk : k1 = k
    · simp only [StdMap.find, hk, if_true, Option.some.injEq] at hf
      subst hf
      simp [Shard.cull_loop, he, StdMap.find, hk]
    · simp only [StdMap.find, hk, if_false] at hf
      cases hv : v.expired tv_sec with
      | true => simp [Shard.cull_loop, hv, ih hf]
      | false => simp [Shard.cull_loop, hv, StdMap.find, hk, ih hf]

theorem set_body_cases (id : K) (item : CacheItem T) (mode : fastcache_writemode)
    (shard : Shard K T) :
    (set_body id item mode shard).2 = shard ∨
    (set_body id item mode shard).2 =
      { map := StdMap.place id item (shard.map.filter (fun e => decide (e.1 ≠ id))) } := by
  cases mode with
  | FASTCACHE_WRITEMODE_WRITE_ALWAYS => right; rw [set_body_always]
  | FASTCACHE_WRITEMODE_ONLY_WRITE_IF_SET =>
    cases hf : StdMap.find shard.map id with
    | none => left; rw [set_body_if_set_absent id item hf]
    | some old => right; rw [set_body_if_set_present id item hf]
  | FASTCACHE_WRITEMODE_ONLY_WRITE_IF_NOT_SET =>
    cases hf : StdMap.find shard.map id with
    | none =>
      right
      rw [set_body_if_not_set_absent id item hf, StdMap.filter_ne_of_find_none hf]
    | some old => left; rw [set_body_if_not_set_present id item hf]

theorem get_body_cases (id : K) (tv_sec : Int) (shard : Shard K T) :
    (get_body id tv_sec shard).2 = shard ∨
    (get_body id tv_sec shard).2 =
      { map := shard.map.filter (fun e => decide (e.1 ≠ id)) } := by
  cases hf : StdMap.find shard.map id with
  | none => left; rw [get_body_absent id tv_sec hf]
  | some item =>
    cases he : item.expired tv_sec with
    | true => right; rw [get_body_expired id tv_sec hf he]
    | false => left; rw [get_body_live id tv_sec hf he]

theorem set_body_find_other (id : K) (item : CacheItem T) (mode : fastcache_writemode)
    (shard : Shard K T) {k : K} (hk : k ≠ id) :
    StdMap.find (set_body id item mode shard).2.map k = StdMap.find shard.map k := by
  rcases set_body_cases id item mode shard with h | h
  · rw [h]
  · rw [h]
    simp only []
    rw [StdMap.find_place_other id item _ hk, StdMap.find_filter_ne_other _ hk]

theorem get_body_find_other (id : K) (tv_sec : Int) (shard : Shard K T) {k : K} (hk : k ≠ id) :
    StdMap.find (get_body id tv_sec shard).2.map k = StdMap.find shard.map k := by
  rcases get_body_cases id tv_sec shard with h | h
  · rw [h]
  · rw [h]
    exact StdMap.find_filter_ne_other _ hk

theorem del_body_find_other (id : K) (shard : Shard K T) {k : K} (hk : k ≠ id) :
    StdMap.find (del_body id shard).2.map k = StdMap.find shard.map k :=
  StdMap.find_filter_ne_other _ hk

theorem stored_set_shard (hash : K → Nat) (FASTCACHE_SHARDSIZE : Nat) (c : StorageCache K T)
    {i : Nat} {shard : Shard K T} (hs : c.shards[i]? = some shard) (shard1 : Shard K T)
    (k : K) :
    stored hash FASTCACHE_SHARDSIZE { shards := c.shards.set i shard1 } k =
      if hash k % FASTCACHE_SHARDSIZE = i then StdMap.find shard1.map k
      else stored hash FASTCACHE_SHARDSIZE c k := by
  have hi : i < c.shards.length := (List.getElem?_eq_some.1 hs).1
  by_cases h : hash k % FASTCACHE_SHARDSIZE = i
  · subst h
    simp [stored, hi]
  · have h2 : ¬ i = hash k % FASTCACHE_SHARDSIZE := fun e => h e.symm
    simp only [stored, h, if_false, List.getElem?_set_ne h2]

theorem stored_set_shard_same (hash : K → Nat) (FASTCACHE_SHARDSIZE : Nat)
    (c : StorageCache K T) {i : Nat} {shard : Shard K T} (hs : c.shards[i]? = some shard)
    (shard1 : Shard K T) (k : K)
    (hfind : hash k % FASTCACHE_SHARDSIZE = i →
      StdMap.find shard1.map k = StdMap.find shard.map k) :
    stored hash FASTCACHE_SHARDSIZE { shards := c.shards.set i shard1 } k =
      stored hash FASTCACHE_SHARDSIZE c k := by
  rw [stored_set_shard hash FASTCACHE_SHARDSIZE c hs]
  by_cases h : hash k % FASTCACHE_SHARDSIZE = i
  · rw [if_pos h, hfind h]
    subst h
    simp only [stored, hs]
  · rw [if_neg h]

theorem run_all_induct (hash : K → Nat) (FASTCACHE_SHARDSIZE : Nat)
    (P : StorageCache K T → Prop) (Q : Op K T → Prop)
    (hstep : ∀ c op, P c → Q op → ∃ c1, op.run hash FASTCACHE_SHARDSIZE c = .ok c1 ∧ P c1) :
    ∀ (ops : List (Op K T)) (c : StorageCache K T), P c → (∀ op ∈ ops, Q op) →
      ∃ c1, run_all hash FASTCACHE_SHARDSIZE ops c = .ok c1 ∧ P c1 := by
  intro ops
  induction ops with
  | nil => intro c hc _; exact ⟨c, rfl, hc⟩
  | cons op rest ih =>
    intro c hc hq
    obtain ⟨c1, h1, hp1⟩ := hstep c op hc (hq op (List.mem_cons_self _ _))
    obtain ⟨c2, h2, hp2⟩ := ih c1 hp1 (fun o ho => hq o (List.mem_cons_of_mem _ ho))
    exact ⟨c2, by simp only [run_all, h1, h2], hp2⟩

/-! ## The calls as steps -/

theorem run_set_eq (hash : K → Nat) {FASTCACHE_SHARDSIZE : Nat} (c : StorageCache K T)
    (hN : 0 < FASTCACHE_SHARDSIZE) (id : K) (val : shared_ptr T) (expiration : Int)
    (mode : fastcache_writemode) {shard : Shard K T}
    (hs : c.shards[hash id % FASTCACHE_SHARDSIZE]? = some shard) :
    (Op.set id val expiration mode).run hash FASTCACHE_SHARDSIZE c =
      .ok { shards := c.shards.set (hash id % FASTCACHE_SHARDSIZE)
              (set_body id { data := val, expiration := expiration } mode shard).2 } := by
  simp only [Op.run, set, locked_eq hash c hN id hs]

theorem run_get_eq (hash : K → Nat) {FASTCACHE_SHARDSIZE : Nat} (c : StorageCache K T)
    (hN : 0 < FASTCACHE_SHARDSIZE) (id : K) (tv_sec : Int) {shard : Shard K T}
    (hs : c.shards[hash id % FASTCACHE_SHARDSIZE]? = some shard) :
    (Op.get id tv_sec : Op K T).run hash FASTCACHE_SHARDSIZE c =
      .ok { shards := c.shards.set (hash id % FASTCACHE_SHARDSIZE)
              (get_body id tv_sec shard).2 } := by
  simp only [Op.run, get, locked_eq hash c hN id hs]

theorem run_exists_eq (hash : K → Nat) {FASTCACHE_SHARDSIZE : Nat} (c : StorageCache K T)
    (hN : 0 < FASTCACHE_SHARDSIZE) (id : K) (tv_sec : Int) {shard : Shard K T}
    (hs : c.shards[hash id % FASTCACHE_SHARDSIZE]? = some shard) :
    (Op.exists_ id tv_sec : Op K T).run hash FASTCACHE_SHARDSIZE c =
      .ok { shards := c.shards.set (hash id % FASTCACHE_SHARDSIZE)
              (get_body id tv_sec shard).2 } := by
  simp only [Op.run, exists_, get, locked_eq hash c hN id hs]

theorem run_del_eq (hash : K → Nat) {FASTCACHE_SHARDSIZE : Nat} (c : StorageCache K T)
    (hN : 0 < FASTCACHE_SHARDSIZE) (id : K) {shard : Shard K T}
    (hs : c.shards[hash id % FASTCACHE_SHARDSIZE]? = some shard) :
    (Op.del id : Op K T).run hash FASTCACHE_SHARDSIZE c =
      .ok { shards := c.shards.set (hash id % FASTCACHE_SHARDSIZE) (del_body id shard).2 } := by
  simp only [Op.run, del, locked_eq hash c hN id hs]

theorem stored_curate_sweep_of_live (hash : K → Nat) (FASTCACHE_SHARDSIZE : Nat)
    (c : StorageCache K T) (tv_sec : Int) {k : K} {item : CacheItem T}
    (hf : stored hash FASTCACHE_SHARDSIZE c k = some item) (he : item.expired tv_sec = false) :
    stored hash FASTCACHE_SHARDSIZE (curate_sweep c tv_sec) k = some item := by
  simp only [stored, curate_sweep, List.getElem?_map] at hf ⊢
  cases hs : c.shards[hash k % FASTCACHE_SHARDSIZE]? with
  | none => simp [hs] at hf
  | some shard =>
    simp only [hs] at hf
    simp only [Option.map_some', Shard.cull_expired_keys]
    exact find_cull_loop_of_live tv_sec hf he

theorem stored_curate_shard_of_live (hash : K → Nat) (FASTCACHE_SHARDSIZE : Nat)
    (c : StorageCache K T) (index : Nat) (tv_sec : Int) {k : K} {item : CacheItem T}
    (hf : stored hash FASTCACHE_SHARDSIZE c k = some item) (he : item.expired tv_sec = false) :
    stored hash FASTCACHE_SHARDSIZE (curate_shard c index tv_sec) k = some item := by
  unfold curate_shard
  cases hs : c.shards[index]? with
  | none => exact hf
  | some shard =>
    simp only []
    rw [stored_set_shard hash FASTCACHE_SHARDSIZE c hs]
    by_cases h : hash k % FASTCACHE_SHARDSIZE = index
    · rw [if_pos h]
      subst h
      simp only [stored, hs] at hf
      exact find_cull_loop_of_live tv_sec hf he
    · rw [if_neg h]; exact hf

theorem length_curate_shard (c : StorageCache K T) (index : Nat) (tv_sec : Int) :
    (curate_shard c index tv_sec).shards.length = c.shards.length := by
  unfold curate_shard
  cases c.shards[index]? with
  | none => rfl
  | some shard => simp

theorem expired_of_no_expiration (val : shared_ptr T) (tv_sec : Int) :
    ({ data := val, expiration := 0 } : CacheItem T).expired tv_sec = false := by
  simp [CacheItem.expired]

/-- A key stored without expiration stays stored, with the same entry, through every call
that is not a `set` or `del` of that key. -/
theorem run_keeps_unexpiring (hash : K → Nat) {FASTCACHE_SHARDSIZE : Nat}
    (hN : 0 < FASTCACHE_SHARDSIZE) (k : K) (v : shared_ptr T) (c : StorageCache K T)
    (op : Op K T)
    (hc : c.shards.length = FASTCACHE_SHARDSIZE ∧
      stored hash FASTCACHE_SHARDSIZE c k = some { data := v, expiration := 0 })
    (hop : op.writes k = false) :
    ∃ c1, op.run hash FASTCACHE_SHARDSIZE c = .ok c1 ∧
      (c1.shards.length = FASTCACHE_SHARDSIZE ∧
        stored hash FASTCACHE_SHARDSIZE c1 k = some { data := v, expiration := 0 }) := by
  obtain ⟨hlen, hst⟩ := hc
  have hlive : ∀ shard, c.shards[hash k % FASTCACHE_SHARDSIZE]? = some shard →
      StdMap.find shard.map k = some { data := v, expiration := 0 } := by
    intro shard hs
    simpa only [stored, hs] using hst
  have hget : ∀ (id : K) (tv_sec : Int) (shard : Shard K T),
      c.shards[hash id % FASTCACHE_SHARDSIZE]? = some shard →
      hash k % FASTCACHE_SHARDSIZE = hash id % FASTCACHE_SHARDSIZE →
      StdMap.find (get_body id tv_sec shard).2.map k = StdMap.find shard.map k := by
    intro id tv_sec shard hs hr
    by_cases hk : k = id
    · subst hk
      rw [get_body_live k tv_sec (hlive shard hs) (expired_of_no_expiration v tv_sec)]
    · exact get_body_find_other id tv_sec shard hk
  cases op with
  | set id val expiration mode =>
    have hk : k ≠ id := fun h => by simp [Op.writes, h] at hop
    obtain ⟨shard, hs⟩ := shard_at hash c hN hlen id
    refine ⟨_, run_set_eq hash c hN id val expiration mode hs, ?_, ?_⟩
    · simp [hlen]
    · rw [stored_set_shard_same hash FASTCACHE_SHARDSIZE c hs _ k
        (fun _ => set_body_find_other id _ mode shard hk)]
      exact hst
  | get id tv_sec =>
    obtain ⟨shard, hs⟩ := shard_at hash c hN hlen id
    refine ⟨_, run_get_eq hash c hN id tv_sec hs, ?_, ?_⟩
    · simp [hlen]
    · rw [stored_set_shard_same hash FASTCACHE_SHARDSIZE c hs _ k (hget id tv_sec shard hs)]
      exact hst
  | exists_ id tv_sec =>
    obtain ⟨shard, hs⟩ := shard_at hash c hN hlen id
    refine ⟨_, run_exists_eq hash c hN id tv_sec hs, ?_, ?_⟩
    · simp [hlen]
    · rw [stored_set_shard_same hash FASTCACHE_SHARDSIZE c hs _ k (hget id tv_sec shard hs)]
      exact hst
  | del id =>
    have hk : k ≠ id := fun h => by simp [Op.writes, h] at hop
    obtain ⟨shard, hs⟩ := shard_at hash c hN hlen id
    refine ⟨_, run_del_eq hash c hN id hs, ?_, ?_⟩
    · simp [hlen]
    · rw [stored_set_shard_same hash FASTCACHE_SHARDSIZE c hs _ k
        (fun _ => del_body_find_other id shard hk)]
      exact hst
  | keySet => exact ⟨c, rfl, hlen, hst⟩
  | metrics => exact ⟨c, rfl, hlen, hst⟩
  | curate_sweep tv_sec =>
    refine ⟨_, rfl, ?_, ?_⟩
    · simp [curate_sweep, hlen]
    · exact stored_curate_sweep_of_live hash FASTCACHE_SHARDSIZE c tv_sec hst
        (expired_of_no_expiration v tv_sec)
  | curate_shard index tv_sec =>
    refine ⟨_, rfl, ?_, ?_⟩
    · rw [length_curate_shard, hlen]
    · exact stored_curate_shard_of_live hash FASTCACHE_SHARDSIZE c index tv_sec hst
        (expired_of_no_expiration v tv_sec)

/-! ## Reading, counting and listing -/

theorem get_of_live (hash : K → Nat) {FASTCACHE_SHARDSIZE : Nat} (c : StorageCache K T)
    (hN : 0 < FASTCACHE_SHARDSIZE) (id : K) (tv_sec : Int) {item : CacheItem T}
    (hst : stored hash FASTCACHE_SHARDSIZE c id = some item)
    (he : item.expired tv_sec = false) :
    get hash FASTCACHE_SHARDSIZE c id tv_sec = .ok (item.data, c) := by
  cases hs : c.shards[hash id % FASTCACHE_SHARDSIZE]? with
  | none => simp [stored, hs] at hst
  | some shard =>
    have hf : StdMap.find shard.map id = some item := by simpa only [stored, hs] using hst
    have hb := get_body_live id tv_sec hf he
    rw [get, locked_eq_same hash c hN id hs _ (by rw [hb]), hb]

theorem get_of_absent (hash : K → Nat) {FASTCACHE_SHARDSIZE : Nat} (c : StorageCache K T)
    (hN : 0 < FASTCACHE_SHARDSIZE) (id : K) (tv_sec : Int) {shard : Shard K T}
    (hs : c.shards[hash id % FASTCACHE_SHARDSIZE]? = some shard)
    (hf : StdMap.find shard.map id = none) :
    get hash FASTCACHE_SHARDSIZE c id tv_sec = .ok (none, c) := by
  have hb := get_body_absent id tv_sec hf
  rw [get, locked_eq_same hash c hN id hs _ (by rw [hb]), hb]

theorem get_of_expired (hash : K → Nat) {FASTCACHE_SHARDSIZE : Nat} (c : StorageCache K T)
    (hN : 0 < FASTCACHE_SHARDSIZE) (id : K) (tv_sec : Int) {shard : Shard K T}
    {item : CacheItem T} (hs : c.shards[hash id % FASTCACHE_SHARDSIZE]? = some shard)
    (hf : StdMap.find shard.map id = some item) (he : item.expired tv_sec = true) :
    get hash FASTCACHE_SHARDSIZE c id tv_sec =
      .ok (none, { shards := c.shards.set (hash id % FASTCACHE_SHARDSIZE)
                               { map := shard.map.filter (fun e => decide (e.1 ≠ id)) } }) := by
  rw [get, locked_eq hash c hN id hs, get_body_expired id tv_sec hf he]

theorem foldl_add_size (l : List (Shard K T)) (n : Nat) :
    l.foldl (fun total_size shard => total_size + shard.map.size) n =
      n + (l.map (fun shard => shard.map.length)).sum := by
  induction l generalizing n with
  | nil => simp
  | cons a rest ih =>
    rw [List.foldl_cons, ih]
    simp only [List.map_cons, List.sum_cons, StdMap.size]
    omega

theorem metrics_eq_sum (c : StorageCache K T) :
    metrics c = (c.shards.map (fun shard => shard.map.length)).sum := by
  simp [metrics, foldl_add_size]

theorem sum_set_shard (f : Shard K T → Nat) (shard1 : Shard K T) :
    ∀ (l : List (Shard K T)) (i : Nat) (shard : Shard K T), l[i]? = some shard →
      ((l.set i shard1).map f).sum + f shard = (l.map f).sum + f shard1 := by
  intro l
  induction l with
  | nil => intro i shard h; simp at h
  | cons a rest ih =>
    intro i shard h
    cases i with
    | zero =>
      simp only [List.getElem?_cons_zero, Option.some.injEq] at h
      subst h
      simp only [List.set_cons_zero, List.map_cons, List.sum_cons]
      omega
    | succ j =>
      simp only [List.getElem?_cons_succ] at h
      have := ih j shard h
      simp only [List.set_cons_succ, List.map_cons, List.sum_cons]
      omega

theorem metrics_set_shard (c : StorageCache K T) {i : Nat} {shard : Shard K T}
    (hs : c.shards[i]? = some shard) (shard1 : Shard K T) :
    metrics { shards := c.shards.set i shard1 } + shard.map.length =
      metrics c + shard1.map.length := by
  rw [metrics_eq_sum, metrics_eq_sum]
  exact sum_set_shard (fun shard => shard.map.length) shard1 c.shards i shard hs

theorem length_place (id : K) (item : CacheItem T) (m : StdMap K T) :
    (StdMap.place id item m).length = m.length + 1 := by
  rw [(StdMap.place_perm id item m).length_eq]
  rfl

/-! ## The routing invariant -/

theorem foldl_push_keys (m : StdMap K T) (keys : List K) :
    m.foldl (fun _keyset entry => _keyset ++ [entry.1]) keys = keys ++ m.map Prod.fst := by
  induction m generalizing keys with
  | nil => simp
  | cons a rest ih => simp [List.foldl_cons, ih]

theorem foldl_shard_keys (l : List (Shard K T)) (keys : List K) :
    l.foldl (fun _keyset shard =>
        shard.map.foldl (fun _keyset entry => _keyset ++ [entry.1]) _keyset) keys =
      keys ++ (l.map (fun shard => shard.map.map Prod.fst)).flatten := by
  induction l generalizing keys with
  | nil => simp
  | cons a rest ih =>
    rw [List.foldl_cons, ih, foldl_push_keys]
    simp

theorem keySet_eq_flatten (c : StorageCache K T) :
    keySet c = (c.shards.map (fun shard => shard.map.map Prod.fst)).flatten := by
  rw [keySet, foldl_shard_keys]
  rfl

theorem mem_keySet_iff (c : StorageCache K T) (k : K) :
    k ∈ keySet c ↔ ∃ shard ∈ c.shards, ∃ item, (k, item) ∈ shard.map := by
  rw [keySet_eq_flatten, List.mem_flatten]
  constructor
  · rintro ⟨l, hl, hk⟩
    obtain ⟨shard, hshard, rfl⟩ := List.mem_map.1 hl
    obtain ⟨e, he, rfl⟩ := List.mem_map.1 hk
    exact ⟨shard, hshard, e.2, he⟩
  · rintro ⟨shard, hshard, item, he⟩
    exact ⟨_, List.mem_map.2 ⟨shard, hshard, rfl⟩, List.mem_map.2 ⟨(k, item), he, rfl⟩⟩

theorem routed_new (hash : K → Nat) (FASTCACHE_SHARDSIZE : Nat) :
    Routed hash FASTCACHE_SHARDSIZE (new FASTCACHE_SHARDSIZE : StorageCache K T) := by
  refine ⟨by simp [new], ?_⟩
  intro i shard hs
  have hmem : shard ∈ (new FASTCACHE_SHARDSIZE : StorageCache K T).shards :=
    List.mem_iff_getElem?.2 ⟨i, hs⟩
  rw [new] at hmem
  rw [List.eq_of_mem_replicate hmem]
  exact ⟨List.nodup_nil, fun e he => by simp at he⟩

theorem routed_set_shard {hash : K → Nat} {FASTCACHE_SHARDSIZE : Nat} {c : StorageCache K T}
    (hc : Routed hash FASTCACHE_SHARDSIZE c) (i : Nat) (shard1 : Shard K T)
    (hu : shard1.map.unique) (hr : ∀ e ∈ shard1.map, hash e.1 % FASTCACHE_SHARDSIZE = i) :
    Routed hash FASTCACHE_SHARDSIZE { shards := c.shards.set i shard1 } := by
  refine ⟨by simp [hc.1], ?_⟩
  intro j shard hs
  by_cases hij : i = j
  · subst hij
    simp only [List.getElem?_set] at hs
    by_cases hi : i < c.shards.length
    · simp only [if_true, hi, Option.some.injEq] at hs
      subst hs
      exact ⟨hu, hr⟩
    · simp [hi] at hs
  · rw [List.getElem?_set_ne hij] at hs
    exact hc.2 j shard hs

theorem routed_filter {hash : K → Nat} {FASTCACHE_SHARDSIZE : Nat} {c : StorageCache K T}
    (hc : Routed hash FASTCACHE_SHARDSIZE c) {i : Nat} {shard : Shard K T}
    (hs : c.shards[i]? = some shard) (p : K × CacheItem T → Bool) :
    Routed hash FASTCACHE_SHARDSIZE { shards := c.shards.set i { map := shard.map.filter p } } :=
  routed_set_shard hc i _ (StdMap.unique_filter (hc.2 i shard hs).1 p)
    (fun e he => (hc.2 i shard hs).2 e (List.mem_filter.1 he).1)

theorem routed_set_body {hash : K → Nat} {FASTCACHE_SHARDSIZE : Nat} {c : StorageCache K T}
    (hc : Routed hash FASTCACHE_SHARDSIZE c) (id : K) (item : CacheItem T)
    (mode : fastcache_writemode) {shard : Shard K T}
    (hs : c.shards[hash id % FASTCACHE_SHARDSIZE]? = some shard) :
    Routed hash FASTCACHE_SHARDSIZE
      { shards := c.shards.set (hash id % FASTCACHE_SHARDSIZE)
                    (set_body id item mode shard).2 } := by
  rcases set_body_cases id item mode shard with h | h
  · rw [h, set_shard_self hs]; exact hc
  · rw [h]
    refine routed_set_shard hc _ _ ?_ ?_
    · exact StdMap.unique_place item (StdMap.unique_filter (hc.2 _ shard hs).1 _)
        (StdMap.find_filter_ne_self _ _)
    · intro e he
      rcases List.mem_cons.1 ((StdMap.place_perm id item _).mem_iff.1 he) with h1 | h1
      · rw [h1]
      · exact (hc.2 _ shard hs).2 e (List.mem_filter.1 h1).1

theorem routed_get_body {hash : K → Nat} {FASTCACHE_SHARDSIZE : Nat} {c : StorageCache K T}
    (hc : Routed hash FASTCACHE_SHARDSIZE c) (id : K) (tv_sec : Int) {shard : Shard K T}
    (hs : c.shards[hash id % FASTCACHE_SHARDSIZE]? = some shard) :
    Routed hash FASTCACHE_SHARDSIZE
      { shards := c.shards.set (hash id % FASTCACHE_SHARDSIZE)
                    (get_body id tv_sec shard).2 } := by
  rcases get_body_cases id tv_sec shard with h | h
  · rw [h, set_shard_self hs]; exact hc
  · rw [h]; exact routed_filter hc hs _

theorem routed_curate_shard {hash : K → Nat} {FASTCACHE_SHARDSIZE : Nat} {c : StorageCache K T}
    (hc : Routed hash FASTCACHE_SHARDSIZE c) (index : Nat) (tv_sec : Int) :
    Routed hash FASTCACHE_SHARDSIZE (curate_shard c index tv_sec) := by
  unfold curate_shard
  cases hs : c.shards[index]? with
  | none => exact hc
  | some shard =>
    simp only [Shard.cull_expired_keys, cull_loop_eq_filter]
    exact routed_filter hc hs _

theorem routed_curate_sweep {hash : K → Nat} {FASTCACHE_SHARDSIZE : Nat} {c : StorageCache K T}
    (hc : Routed hash FASTCACHE_SHARDSIZE c) (tv_sec : Int) :
    Routed hash FASTCACHE_SHARDSIZE (curate_sweep c tv_sec) := by
  refine ⟨by simp [curate_sweep, hc.1], ?_⟩
  intro i shard1 hs1
  simp only [curate_sweep, List.getElem?_map] at hs1
  cases hs : c.shards[i]? with
  | none => simp [hs] at hs1
  | some shard =>
    simp only [hs, Option.map_some', Option.some.injEq] at hs1
    subst hs1
    simp only [Shard.cull_expired_keys, cull_loop_eq_filter]
    exact ⟨StdMap.unique_filter (hc.2 i shard hs).1 _,
      fun e he => (hc.2 i shard hs).2 e (List.mem_filter.1 he).1⟩

/-- Every call and every step of the curator succeeds and keeps the keys routed. -/
theorem run_keeps_routed (hash : K → Nat) {FASTCACHE_SHARDSIZE : Nat}
    (hN : 0 < FASTCACHE_SHARDSIZE) (c : StorageCache K T) (op : Op K T)
    (hc : Routed hash FASTCACHE_SHARDSIZE c) :
    ∃ c1, op.run hash FASTCACHE_SHARDSIZE c = .ok c1 ∧ Routed hash FASTCACHE_SHARDSIZE c1 := by
  cases op with
  | set id val expiration mode =>
    obtain ⟨shard, hs⟩ := shard_at hash c hN hc.1 id
    exact ⟨_, run_set_eq hash c hN id val expiration mode hs, routed_set_body hc id _ mode hs⟩
  | get id tv_sec =>
    obtain ⟨shard, hs⟩ := shard_at hash c hN hc.1 id
    exact ⟨_, run_get_eq hash c hN id tv_sec hs, routed_get_body hc id tv_sec hs⟩
  | exists_ id tv_sec =>
    obtain ⟨shard, hs⟩ := shard_at hash c hN hc.1 id
    exact ⟨_, run_exists_eq hash c hN id tv_sec hs, routed_get_body hc id tv_sec hs⟩
  | del id =>
    obtain ⟨shard, hs⟩ := shard_at hash c hN hc.1 id
    exact ⟨_, run_del_eq hash c hN id hs, routed_filter hc hs _⟩
  | keySet => exact ⟨c, rfl, hc⟩
  | metrics => exact ⟨c, rfl, hc⟩
  | curate_sweep tv_sec => exact ⟨_, rfl, routed_curate_sweep hc tv_sec⟩
  | curate_shard index tv_sec => exact ⟨_, rfl, routed_curate_shard hc index tv_sec⟩

theorem routed_of_reachable (hash : K → Nat) {FASTCACHE_SHARDSIZE : Nat}
    (hN : 0 < FASTCACHE_SHARDSIZE) {c : StorageCache K T}
    (hr : Reachable hash FASTCACHE_SHARDSIZE c) : Routed hash FASTCACHE_SHARDSIZE c := by
  obtain ⟨ops, hops⟩ := hr
  obtain ⟨c1, h1, hc1⟩ := run_all_induct hash FASTCACHE_SHARDSIZE
    (Routed hash FASTCACHE_SHARDSIZE) (fun _ => True)
    (fun c op hc _ => run_keeps_routed hash hN c op hc) ops _
    (routed_new hash FASTCACHE_SHARDSIZE) (fun _ _ => trivial)
  rw [hops] at h1
  cases h1
  exact hc1

theorem keySet_nodup_of_routed {hash : K → Nat} {FASTCACHE_SHARDSIZE : Nat}
    {c : StorageCache K T} (hc : Routed hash FASTCACHE_SHARDSIZE c) : (keySet c).Nodup := by
  rw [keySet_eq_flatten, List.nodup_flatten]
  constructor
  · intro l hl
    obtain ⟨shard, hshard, rfl⟩ := List.mem_map.1 hl
    obtain ⟨i, hi⟩ := List.mem_iff_getElem?.1 hshard
    exact (hc.2 i shard hi).1
  · rw [List.pairwise_iff_getElem]
    intro i j hi hj hij
    simp only [List.length_map] at hi hj
    simp only [List.getElem_map]
    rw [List.disjoint_left]
    intro k hk1 hk2
    obtain ⟨e1, he1, hf1⟩ := List.mem_map.1 hk1
    obtain ⟨e2, he2, hf2⟩ := List.mem_map.1 hk2
    have h1 := (hc.2 i _ (List.getElem?_eq_getElem hi)).2 e1 he1
    have h2 := (hc.2 j _ (List.getElem?_eq_getElem hj)).2 e2 he2
    rw [hf1] at h1
    rw [hf2] at h2
    omega

theorem stored_isSome_iff_mem_keySet {hash : K → Nat} {FASTCACHE_SHARDSIZE : Nat}
    {c : StorageCache K T} (hc : Routed hash FASTCACHE_SHARDSIZE c) (k : K) :
    k ∈ keySet c ↔ stored hash FASTCACHE_SHARDSIZE c k ≠ none := by
  rw [mem_keySet_iff]
  constructor
  · rintro ⟨shard, hshard, item, he⟩
    obtain ⟨i, hi⟩ := List.mem_iff_getElem?.1 hshard
    have hr := (hc.2 i shard hi).2 _ he
    simp only at hr
    subst hr
    simp only [stored, hi]
    intro hnone
    exact (StdMap.find_eq_none_iff shard.map k).1 hnone _ he rfl
  · intro h
    cases hs : c.shards[hash k % FASTCACHE_SHARDSIZE]? with
    | none => simp [stored, hs] at h
    | some shard =>
      simp only [stored, hs] at h
      obtain ⟨item, hitem⟩ := Option.ne_none_iff_exists'.1 h
      exact ⟨shard, List.mem_iff_getElem?.2 ⟨_, hs⟩, item, StdMap.mem_of_find_eq_some hitem⟩

theorem keySet_new (FASTCACHE_SHARDSIZE : Nat) (k : K) :
    k ∉ keySet (new FASTCACHE_SHARDSIZE : StorageCache K T) := by
  rw [mem_keySet_iff]
  rintro ⟨shard, hshard, item, he⟩
  rw [new] at hshard
  rw [List.eq_of_mem_replicate hshard] at he
  simp at he

theorem mem_keySet_after_set (hash : K → Nat) {FASTCACHE_SHARDSIZE : Nat}
    (hN : 0 < FASTCACHE_SHARDSIZE) {c : StorageCache K T}
    (hc : Routed hash FASTCACHE_SHARDSIZE c) (id : K) (val : shared_ptr T) (expiration : Int) :
    ∃ c1, (Op.set id val expiration FASTCACHE_WRITEMODE_WRITE_ALWAYS).run hash
        FASTCACHE_SHARDSIZE c = .ok c1 ∧
      Routed hash FASTCACHE_SHARDSIZE c1 ∧ ∀ k, k ∈ keySet c1 ↔ k = id ∨ k ∈ keySet c := by
  obtain ⟨shard, hs⟩ := shard_at hash c hN hc.1 id
  have hi : hash id % FASTCACHE_SHARDSIZE < c.shards.length := (List.getElem?_eq_some.1 hs).1
  have hc1 := routed_set_body hc id { data := val, expiration := expiration }
    FASTCACHE_WRITEMODE_WRITE_ALWAYS hs
  refine ⟨_, run_set_eq hash c hN id val expiration _ hs, hc1, ?_⟩
  intro k
  rw [stored_isSome_iff_mem_keySet hc1, stored_isSome_iff_mem_keySet hc]
  by_cases hk : k = id
  · subst hk
    have : stored hash FASTCACHE_SHARDSIZE
        { shards := c.shards.set (hash k % FASTCACHE_SHARDSIZE)
            (set_body k { data := val, expiration := expiration }
              FASTCACHE_WRITEMODE_WRITE_ALWAYS shard).2 } k =
        some { data := val, expiration := expiration } := by
      rw [stored_set_shard hash FASTCACHE_SHARDSIZE c hs, if_pos rfl, set_body_always]
      exact (written_entry k _ shard.map).1
    simp [this]
  · rw [stored_set_shard_same hash FASTCACHE_SHARDSIZE c hs _ k
      (fun _ => set_body_find_other id _ _ shard hk)]
    simp [hk]

theorem run_sets (hash : K → Nat) {FASTCACHE_SHARDSIZE : Nat} (hN : 0 < FASTCACHE_SHARDSIZE) :
    ∀ (entries : List (K × shared_ptr T × Int)) (c : StorageCache K T),
      Routed hash FASTCACHE_SHARDSIZE c →
      ∃ c1, run_all hash FASTCACHE_SHARDSIZE
          (entries.map (fun e => Op.set e.1 e.2.1 e.2.2 FASTCACHE_WRITEMODE_WRITE_ALWAYS)) c
          = .ok c1 ∧
        Routed hash FASTCACHE_SHARDSIZE c1 ∧
        ∀ k, k ∈ keySet c1 ↔ k ∈ keySet c ∨ k ∈ entries.map Prod.fst := by
  intro entries
  induction entries with
  | nil => intro c hc; exact ⟨c, rfl, hc, by simp⟩
  | cons e rest ih =>
    intro c hc
    obtain ⟨c1, h1, hc1, hk1⟩ := mem_keySet_after_set hash hN hc e.1 e.2.1 e.2.2
    obtain ⟨c2, h2, hc2, hk2⟩ := ih c1 hc1
    refine ⟨c2, by simp only [List.map_cons, run_all, h1, h2], hc2, ?_⟩
    intro k
    rw [hk2, hk1]
    simp only [List.map_cons, List.mem_cons]
    tauto

/-! ## The concrete cache -/

theorem demo_length : demo_cache.shards.length = 256 := by
  simp only [demo_cache, List.length_set, List.length_replicate]

theorem demo_shard_five :
    demo_cache.shards[5]? =
      some { map := [(5, { data := some 50, expiration := 0 }),
                     (261, { data := some 61, expiration := 100 })] } := by
  rw [demo_cache]
  exact List.getElem?_set_self (by rw [List.length_replicate]; decide)

theorem demo_stored_261 :
    stored demo_hash 256 demo_cache 261 = some { data := some 61, expiration := 100 } := by
  have h : demo_hash 261 % 256 = 5 := by decide
  simp only [stored, h, demo_shard_five]
  decide

theorem demo_unique : ∀ shard ∈ demo_cache.shards, shard.map.unique := by
  intro shard h
  rcases List.mem_or_eq_of_mem_set h with h1 | h1
  · rw [List.eq_of_mem_replicate h1]
    exact List.nodup_nil
  · rw [h1]
    simp [StdMap.unique]

theorem demo_reachable : Reachable demo_hash 256 demo_cache := by
  have hN : 0 < 256 := by decide
  have h0 : (new 256 : StorageCache Nat Nat).shards[demo_hash 5 % 256]? = some { map := [] } := by
    rw [new, List.getElem?_replicate]; rfl
  have r1 := run_set_eq demo_hash (new 256) hN 5 (some 50) 0 FASTCACHE_WRITEMODE_WRITE_ALWAYS h0
  have e1 : (set_body 5 { data := some 50, expiration := 0 } FASTCACHE_WRITEMODE_WRITE_ALWAYS
      ({ map := [] } : Shard Nat Nat)).2 = { map := [(5, { data := some 50, expiration := 0 })] } := by
    decide
  have i5 : demo_hash 5 % 256 = 5 := by decide
  have i261 : demo_hash 261 % 256 = 5 := by decide
  rw [e1, i5] at r1
  have h1 : (StorageCache.mk ((new 256 : StorageCache Nat Nat).shards.set 5
      { map := [(5, { data := some 50, expiration := 0 })] })).shards[demo_hash 261 % 256]? =
      some { map := [(5, { data := some 50, expiration := 0 })] } := by
    rw [i261]
    exact List.getElem?_set_self (by rw [new, List.length_replicate]; decide)
  have r2 := run_set_eq demo_hash _ hN 261 (some 61) 100 FASTCACHE_WRITEMODE_WRITE_ALWAYS h1
  have e2 : (set_body 261 { data := some 61, expiration := 100 } FASTCACHE_WRITEMODE_WRITE_ALWAYS
      ({ map := [(5, { data := some 50, expiration := 0 })] } : Shard Nat Nat)).2 =
      { map := [(5, { data := some 50, expiration := 0 }),
                (261, { data := some 61, expiration := 100 })] } := by
    decide
  rw [e2, i261, List.set_set] at r2
  refine ⟨[Op.set 5 (some 50) 0 FASTCACHE_WRITEMODE_WRITE_ALWAYS,
    Op.set 261 (some 61) 100 FASTCACHE_WRITEMODE_WRITE_ALWAYS], ?_⟩
  simp only [run_all, r1, r2]
  rfl

/-! ## The claims -/

/-- C1: `get` has exactly three outcomes. When the key is absent from its shard it returns
the empty pointer and the cache is unchanged; when the key is present and its entry is
expired it returns the empty pointer and the cache is the old one with that key removed from
the shard; when the key is present and not expired it returns the stored value and the cache
is unchanged. In no case does it raise. -/
theorem get_three_outcomes (hash : K → Nat) (FASTCACHE_SHARDSIZE : Nat) (c : StorageCache K T)
    (hN : 0 < FASTCACHE_SHARDSIZE) (hlen : c.shards.length = FASTCACHE_SHARDSIZE)
    (id : K) (tv_sec : Int) :
    ∃ shard, c.shards[hash id % FASTCACHE_SHARDSIZE]? = some shard ∧
      (shard.map.find id = none →
        get hash FASTCACHE_SHARDSIZE c id tv_sec = .ok (none, c)) ∧
      (∀ item, shard.map.find id = some item → item.expired tv_sec = true →
        get hash FASTCACHE_SHARDSIZE c id tv_sec =
          .ok (none, { shards := c.shards.set (hash id % FASTCACHE_SHARDSIZE)
                                   { map := shard.map.filter (fun e => decide (e.1 ≠ id)) } })) ∧
      (∀ item, shard.map.find id = some item → item.expired tv_sec = false →
        get hash FASTCACHE_SHARDSIZE c id tv_sec = .ok (item.data, c)) := by
  obtain ⟨shard, hs⟩ := shard_at hash c hN hlen id
  refine ⟨shard, hs, ?_, ?_, ?_⟩
  · intro hf
    rw [get, locked_eq_same hash c hN id hs _ (by rw [get_body_absent id tv_sec hf]),
      get_body_absent id tv_sec hf]
  · intro item hf he
    rw [get, locked_eq hash c hN id hs, get_body_expired id tv_sec hf he]
  · intro item hf he
    rw [get, locked_eq_same hash c hN id hs _ (by rw [get_body_live id tv_sec hf he]),
      get_body_live id tv_sec hf he]

/-- C1 at the concrete cache: key 261 (shard 5), read at second 101. -/
theorem get_three_outcomes_witness :
    (0 < 256 ∧ demo_cache.shards.length = 256) ∧
    ∃ shard, demo_cache.shards[demo_hash 261 % 256]? = some shard ∧
      (shard.map.find 261 = none →
        get demo_hash 256 demo_cache 261 101 = .ok (none, demo_cache)) ∧
      (∀ item, shard.map.find 261 = some item → item.expired 101 = true →
        get demo_hash 256 demo_cache 261 101 =
          .ok (none, { shards := demo_cache.shards.set (demo_hash 261 % 256)
                                   { map := shard.map.filter (fun e => decide (e.1 ≠ 261)) } })) ∧
      (∀ item, shard.map.find 261 = some item → item.expired 101 = false →
        get demo_hash 256 demo_cache 261 101 = .ok (item.data, demo_cache)) :=
  ⟨⟨by decide, demo_length⟩,
    get_three_outcomes demo_hash 256 demo_cache (by decide) demo_length 261 101⟩

/-- C2: `set` in mode WRITE_ALWAYS returns 1, and afterwards the shard of the key holds
for the key exactly one entry, the new value with the new expiration, whatever was stored
for the key before; the entries of the other keys of the shard are the old ones. -/
theorem set_write_always (hash : K → Nat) (FASTCACHE_SHARDSIZE : Nat) (c : StorageCache K T)
    (hN : 0 < FASTCACHE_SHARDSIZE) (hlen : c.shards.length = FASTCACHE_SHARDSIZE)
    (id : K) (val : shared_ptr T) (expiration : Int) :
    ∃ shard c1 shard1, c.shards[hash id % FASTCACHE_SHARDSIZE]? = some shard ∧
      set hash FASTCACHE_SHARDSIZE c id val expiration FASTCACHE_WRITEMODE_WRITE_ALWAYS = .ok (1, c1) ∧
      c1.shards = c.shards.set (hash id % FASTCACHE_SHARDSIZE) shard1 ∧
      c1.shards[hash id % FASTCACHE_SHARDSIZE]? = some shard1 ∧
      shard1.map.find id = some { data := val, expiration := expiration } ∧
      shard1.map.filter (fun e => decide (e.1 = id)) =
        [(id, { data := val, expiration := expiration })] ∧
      shard1.map.filter (fun e => decide (e.1 ≠ id)) =
        shard.map.filter (fun e => decide (e.1 ≠ id)) := by
  obtain ⟨shard, hs⟩ := shard_at hash c hN hlen id
  obtain ⟨c1, shard1, h⟩ := set_written hash c hN id val expiration
    FASTCACHE_WRITEMODE_WRITE_ALWAYS hs (set_body_always id _ shard)
  exact ⟨shard, c1, shard1, hs, h⟩

/-- C2 at the concrete cache: key 5 is overwritten with value 99 expiring after second 7. -/
theorem set_write_always_witness :
    (0 < 256 ∧ demo_cache.shards.length = 256) ∧
    ∃ shard c1 shard1, demo_cache.shards[demo_hash 5 % 256]? = some shard ∧
      set demo_hash 256 demo_cache 5 (some 99) 7 FASTCACHE_WRITEMODE_WRITE_ALWAYS = .ok (1, c1) ∧
      c1.shards = demo_cache.shards.set (demo_hash 5 % 256) shard1 ∧
      c1.shards[demo_hash 5 % 256]? = some shard1 ∧
      shard1.map.find 5 = some { data := some 99, expiration := 7 } ∧
      shard1.map.filter (fun e => decide (e.1 = 5)) =
        [(5, { data := some 99, expiration := 7 })] ∧
      shard1.map.filter (fun e => decide (e.1 ≠ 5)) =
        shard.map.filter (fun e => decide (e.1 ≠ 5)) :=
  ⟨⟨by decide, demo_length⟩,
    set_write_always demo_hash 256 demo_cache (by decide)
      demo_length 5 (some 99) 7⟩

/-- C3: `set` in mode ONLY_WRITE_IF_NOT_SET returns 0 and leaves the whole cache as it was
when the key is present in its shard; when the key is absent it returns 1 and the shard
then holds for the key exactly the new entry, next to the old entries of the other keys. -/
theorem set_only_write_if_not_set (hash : K → Nat) (FASTCACHE_SHARDSIZE : Nat) (c : StorageCache K T)
    (hN : 0 < FASTCACHE_SHARDSIZE) (hlen : c.shards.length = FASTCACHE_SHARDSIZE)
    (id : K) (val : shared_ptr T) (expiration : Int) :
    ∃ shard, c.shards[hash id % FASTCACHE_SHARDSIZE]? = some shard ∧
      (∀ old, shard.map.find id = some old →
        set hash FASTCACHE_SHARDSIZE c id val expiration FASTCACHE_WRITEMODE_ONLY_WRITE_IF_NOT_SET = .ok (0, c)) ∧
      (shard.map.find id = none →
        ∃ c1 shard1, set hash FASTCACHE_SHARDSIZE c id val expiration FASTCACHE_WRITEMODE_ONLY_WRITE_IF_NOT_SET = .ok (1, c1) ∧
          c1.shards = c.shards.set (hash id % FASTCACHE_SHARDSIZE) shard1 ∧
          c1.shards[hash id % FASTCACHE_SHARDSIZE]? = some shard1 ∧
          shard1.map.find id = some { data := val, expiration := expiration } ∧
          shard1.map.filter (fun e => decide (e.1 = id)) =
            [(id, { data := val, expiration := expiration })] ∧
          shard1.map.filter (fun e => decide (e.1 ≠ id)) =
            shard.map.filter (fun e => decide (e.1 ≠ id))) := by
  obtain ⟨shard, hs⟩ := shard_at hash c hN hlen id
  refine ⟨shard, hs, ?_, ?_⟩
  · intro old hf
    have hb := set_body_if_not_set_present id { data := val, expiration := expiration } hf
    rw [set, locked_eq_same hash c hN id hs _ (by rw [hb]), hb]
  · intro hf
    refine set_written hash c hN id val expiration _ hs ?_
    rw [set_body_if_not_set_absent id _ hf, StdMap.filter_ne_of_find_none hf]

/-- C3 at the concrete cache: key 5 is present. -/
theorem set_only_write_if_not_set_witness :
    (0 < 256 ∧ demo_cache.shards.length = 256) ∧
    ∃ shard, demo_cache.shards[demo_hash 5 % 256]? = some shard ∧
      (∀ old, shard.map.find 5 = some old →
        set demo_hash 256 demo_cache 5 (some 99) 7 FASTCACHE_WRITEMODE_ONLY_WRITE_IF_NOT_SET = .ok (0, demo_cache)) ∧
      (shard.map.find 5 = none →
        ∃ c1 shard1, set demo_hash 256 demo_cache 5 (some 99) 7 FASTCACHE_WRITEMODE_ONLY_WRITE_IF_NOT_SET = .ok (1, c1) ∧
          c1.shards = demo_cache.shards.set (demo_hash 5 % 256) shard1 ∧
          c1.shards[demo_hash 5 % 256]? = some shard1 ∧
          shard1.map.find 5 = some { data := some 99, expiration := 7 } ∧
          shard1.map.filter (fun e => decide (e.1 = 5)) =
            [(5, { data := some 99, expiration := 7 })] ∧
          shard1.map.filter (fun e => decide (e.1 ≠ 5)) =
            shard.map.filter (fun e => decide (e.1 ≠ 5))) :=
  ⟨⟨by decide, demo_length⟩,
    set_only_write_if_not_set demo_hash 256 demo_cache (by decide)
      demo_length 5 (some 99) 7⟩

/-- C4: `set` in mode ONLY_WRITE_IF_SET returns 0 and leaves the whole cache as it was when
the key is absent from its shard; when the key is present it returns 1 and the shard then
holds for the key exactly the new entry, next to the old entries of the other keys. -/
theorem set_only_write_if_set (hash : K → Nat) (FASTCACHE_SHARDSIZE : Nat) (c : StorageCache K T)
    (hN : 0 < FASTCACHE_SHARDSIZE) (hlen : c.shards.length = FASTCACHE_SHARDSIZE)
    (id : K) (val : shared_ptr T) (expiration : Int) :
    ∃ shard, c.shards[hash id % FASTCACHE_SHARDSIZE]? = some shard ∧
      (shard.map.find id = none →
        set hash FASTCACHE_SHARDSIZE c id val expiration FASTCACHE_WRITEMODE_ONLY_WRITE_IF_SET = .ok (0, c)) ∧
      (∀ old, shard.map.find id = some old →
        ∃ c1 shard1, set hash FASTCACHE_SHARDSIZE c id val expiration FASTCACHE_WRITEMODE_ONLY_WRITE_IF_SET = .ok (1, c1) ∧
          c1.shards = c.shards.set (hash id % FASTCACHE_SHARDSIZE) shard1 ∧
          c1.shards[hash id % FASTCACHE_SHARDSIZE]? = some shard1 ∧
          shard1.map.find id = some { data := val, expiration := expiration } ∧
          shard1.map.filter (fun e => decide (e.1 = id)) =
            [(id, { data := val, expiration := expiration })] ∧
          shard1.map.filter (fun e => decide (e.1 ≠ id)) =
            shard.map.filter (fun e => decide (e.1 ≠ id))) := by
  obtain ⟨shard, hs⟩ := shard_at hash c hN hlen id
  refine ⟨shard, hs, ?_, ?_⟩
  · intro hf
    have hb := set_body_if_set_absent id { data := val, expiration := expiration } hf
    rw [set, locked_eq_same hash c hN id hs _ (by rw [hb]), hb]
  · intro old hf
    exact set_written hash c hN id val expiration _ hs (set_body_if_set_present id _ hf)

/-- C4 at the concrete cache: key 7 is absent. -/
theorem set_only_write_if_set_witness :
    (0 < 256 ∧ demo_cache.shards.length = 256) ∧
    ∃ shard, demo_cache.shards[demo_hash 7 % 256]? = some shard ∧
      (shard.map.find 7 = none →
        set demo_hash 256 demo_cache 7 (some 99) 7 FASTCACHE_WRITEMODE_ONLY_WRITE_IF_SET = .ok (0, demo_cache)) ∧
      (∀ old, shard.map.find 7 = some old →
        ∃ c1 shard1, set demo_hash 256 demo_cache 7 (some 99) 7 FASTCACHE_WRITEMODE_ONLY_WRITE_IF_SET = .ok (1, c1) ∧
          c1.shards = demo_cache.shards.set (demo_hash 7 % 256) shard1 ∧
          c1.shards[demo_hash 7 % 256]? = some shard1 ∧
          shard1.map.find 7 = some { data := some 99, expiration := 7 } ∧
          shard1.map.filter (fun e => decide (e.1 = 7)) =
            [(7, { data := some 99, expiration := 7 })] ∧
          shard1.map.filter (fun e => decide (e.1 ≠ 7)) =
            shard.map.filter (fun e => decide (e.1 ≠ 7))) :=
  ⟨⟨by decide, demo_length⟩,
    set_only_write_if_set demo_hash 256 demo_cache (by decide)
      demo_length 7 (some 99) 7⟩

/-- C5: round trip. After `set(k, v)` with expiration 0 in mode WRITE_ALWAYS, and after any
sequence of calls and curator steps none of which is a `set` or `del` of `k`, `get(k)`
returns `v`, at every second of the clock, and leaves the cache as it is. -/
theorem set_get_round_trip (hash : K → Nat) (FASTCACHE_SHARDSIZE : Nat) (c : StorageCache K T)
    (hN : 0 < FASTCACHE_SHARDSIZE) (hlen : c.shards.length = FASTCACHE_SHARDSIZE)
    (k : K) (v : shared_ptr T) (ops : List (Op K T))
    (hops : ∀ op ∈ ops, op.writes k = false) :
    ∃ c1 c2, set hash FASTCACHE_SHARDSIZE c k v 0 FASTCACHE_WRITEMODE_WRITE_ALWAYS = .ok (1, c1) ∧
      run_all hash FASTCACHE_SHARDSIZE ops c1 = .ok c2 ∧
      ∀ tv_sec : Int, get hash FASTCACHE_SHARDSIZE c2 k tv_sec = .ok (v, c2) := by
  obtain ⟨shard, hs⟩ := shard_at hash c hN hlen k
  obtain ⟨c1, shard1, hset, hsh, hs1, hf1, -, -⟩ := set_written hash c hN k v 0
    FASTCACHE_WRITEMODE_WRITE_ALWAYS hs (set_body_always k _ shard)
  have hlen1 : c1.shards.length = FASTCACHE_SHARDSIZE := by rw [hsh]; simp [hlen]
  have hst1 : stored hash FASTCACHE_SHARDSIZE c1 k = some { data := v, expiration := 0 } := by
    simp only [stored, hs1, hf1]
  obtain ⟨c2, hrun, hlen2, hst2⟩ := run_all_induct hash FASTCACHE_SHARDSIZE
    (fun c => c.shards.length = FASTCACHE_SHARDSIZE ∧
      stored hash FASTCACHE_SHARDSIZE c k = some { data := v, expiration := 0 })
    (fun op => op.writes k = false)
    (fun c op hc hop => run_keeps_unexpiring hash hN k v c op hc hop) ops c1 ⟨hlen1, hst1⟩ hops
  refine ⟨c1, c2, hset, hrun, ?_⟩
  intro tv_sec
  obtain ⟨shard2, hs2⟩ := shard_at hash c2 hN hlen2 k
  have hf2 : StdMap.find shard2.map k = some { data := v, expiration := 0 } := by
    simpa only [stored, hs2] using hst2
  have hb := get_body_live k tv_sec hf2 (expired_of_no_expiration v tv_sec)
  rw [get, locked_eq_same hash c2 hN k hs2 _ (by rw [hb]), hb]

/-- C5 at the concrete cache: key 7 is set, then key 7 is read, key 263 of the same shard is
set and deleted, key 5 is deleted and the curator sweeps. -/
theorem set_get_round_trip_witness :
    (0 < 256 ∧ demo_cache.shards.length = 256 ∧
      ∀ op ∈ [Op.get 7 50, Op.set 263 (some 1) 20 FASTCACHE_WRITEMODE_WRITE_ALWAYS,
          Op.curate_sweep 1000, Op.del 263, Op.del 5, Op.exists_ 7 2000,
          Op.curate_shard 7 3000], Op.writes 7 op = false) ∧
    ∃ c1 c2, set demo_hash 256 demo_cache 7 (some 70) 0 FASTCACHE_WRITEMODE_WRITE_ALWAYS
        = .ok (1, c1) ∧
      run_all demo_hash 256 [Op.get 7 50, Op.set 263 (some 1) 20 FASTCACHE_WRITEMODE_WRITE_ALWAYS,
          Op.curate_sweep 1000, Op.del 263, Op.del 5, Op.exists_ 7 2000,
          Op.curate_shard 7 3000] c1 = .ok c2 ∧
      ∀ tv_sec : Int, get demo_hash 256 c2 7 tv_sec = .ok (some 70, c2) :=
  ⟨⟨by decide, demo_length, by decide⟩,
    set_get_round_trip demo_hash 256 demo_cache (by decide)
      demo_length 7 (some 70) _
      (by decide)⟩

/-- C6 as stated fails at expiration 0: 0 is strictly earlier than second 1700000000, yet
the entry `set` with expiration 0 is not expired, and `get` at that second returns the
value. -/
theorem past_expiration_counterexample :
    (0 : Int) < 1700000000 ∧
    ∃ c1, set demo_hash 256 demo_cache 7 (some 70) 0 FASTCACHE_WRITEMODE_WRITE_ALWAYS
        = .ok (1, c1) ∧
      get demo_hash 256 c1 7 1700000000 = .ok (some 70, c1) := by
  refine ⟨by decide, ?_⟩
  have hN : 0 < 256 := by decide
  obtain ⟨shard, hs⟩ := shard_at demo_hash demo_cache hN demo_length 7
  obtain ⟨c1, shard1, hset, -, hs1, hf1, -, -⟩ := set_written demo_hash demo_cache
    hN 7 (some 70) 0 FASTCACHE_WRITEMODE_WRITE_ALWAYS hs (set_body_always 7 _ shard)
  refine ⟨c1, hset, ?_⟩
  have hst : stored demo_hash 256 c1 7 = some { data := some 70, expiration := 0 } := by
    simp only [stored, hs1, hf1]
  exact get_of_live demo_hash c1 hN 7 1700000000 hst
    (expired_of_no_expiration (some 70) 1700000000)

/-- C6, amended: for every expiration other than 0 that is strictly earlier than the second
`tv_sec`, the entry `set` creates is expired at `tv_sec`; the following `get` at `tv_sec`
returns the empty pointer, afterwards the shard of the key holds no entry for it, and
`metrics` is one less than right after the `set`. -/
theorem past_expiration_expired (hash : K → Nat) (FASTCACHE_SHARDSIZE : Nat)
    (c : StorageCache K T) (hN : 0 < FASTCACHE_SHARDSIZE)
    (hlen : c.shards.length = FASTCACHE_SHARDSIZE) (k : K) (v : shared_ptr T)
    (expiration tv_sec : Int) (h0 : expiration ≠ 0) (hpast : expiration < tv_sec) :
    ({ data := v, expiration := expiration } : CacheItem T).expired tv_sec = true ∧
    ∃ c1 c2, set hash FASTCACHE_SHARDSIZE c k v expiration FASTCACHE_WRITEMODE_WRITE_ALWAYS
        = .ok (1, c1) ∧
      get hash FASTCACHE_SHARDSIZE c1 k tv_sec = .ok (none, c2) ∧
      stored hash FASTCACHE_SHARDSIZE c2 k = none ∧
      metrics c2 + 1 = metrics c1 := by
  have hexp : ({ data := v, expiration := expiration } : CacheItem T).expired tv_sec = true := by
    simp [CacheItem.expired, h0, hpast]
  refine ⟨hexp, ?_⟩
  obtain ⟨shard, hs⟩ := shard_at hash c hN hlen k
  obtain ⟨c1, shard1, hset, hsh, hs1, hf1, heq, hne⟩ := set_written hash c hN k v expiration
    FASTCACHE_WRITEMODE_WRITE_ALWAYS hs (set_body_always k _ shard)
  refine ⟨c1, _, hset, get_of_expired hash c1 hN k tv_sec hs1 hf1 hexp, ?_, ?_⟩
  · rw [stored_set_shard hash FASTCACHE_SHARDSIZE c1 hs1, if_pos rfl]
    exact StdMap.find_filter_ne_self _ _
  · have hm := metrics_set_shard c1 hs1
      { map := shard1.map.filter (fun e => decide (e.1 ≠ k)) }
    have hsplit : (shard1.map.filter (fun e => decide (e.1 = k))).length +
        (shard1.map.filter (fun e => decide (e.1 ≠ k))).length = shard1.map.length := by
      have := List.length_eq_length_filter_add (l := shard1.map) (fun e => decide (e.1 = k))
      simp only [decide_not] 
      omega
    rw [heq] at hsplit
    simp only [List.length_singleton] at hsplit
    simp only [] at hm
    omega

/-- C6, amended, at the concrete cache: key 7 set with expiration 99, read at second 100. -/
theorem past_expiration_expired_witness :
    (0 < 256 ∧ demo_cache.shards.length = 256 ∧ (99 : Int) ≠ 0 ∧ (99 : Int) < 100) ∧
    (({ data := some 70, expiration := 99 } : CacheItem Nat).expired 100 = true ∧
    ∃ c1 c2, set demo_hash 256 demo_cache 7 (some 70) 99 FASTCACHE_WRITEMODE_WRITE_ALWAYS
        = .ok (1, c1) ∧
      get demo_hash 256 c1 7 100 = .ok (none, c2) ∧
      stored demo_hash 256 c2 7 = none ∧
      metrics c2 + 1 = metrics c1) :=
  ⟨⟨by decide, demo_length, by decide, by decide⟩,
    past_expiration_expired demo_hash 256 demo_cache (by decide) demo_length 7 (some 70) 99 100
      (by decide) (by decide)⟩

/-- C7: `expired` is false for an entry without expiration (field 0); otherwise it is true
exactly when the second of the clock is strictly greater than the expiration; an entry
whose expiration equals the second of the clock is not expired, and `get` on it returns its
value and leaves the cache as it is. -/
theorem expired_strict (item : CacheItem T) (tv_sec : Int) :
    (item.expiration = 0 → item.expired tv_sec = false) ∧
    (item.expiration ≠ 0 → (item.expired tv_sec = true ↔ tv_sec > item.expiration)) ∧
    (item.expiration = tv_sec →
      item.expired tv_sec = false ∧
      ∀ (hash : K → Nat) (FASTCACHE_SHARDSIZE : Nat) (c : StorageCache K T) (id : K),
        0 < FASTCACHE_SHARDSIZE → stored hash FASTCACHE_SHARDSIZE c id = some item →
        get hash FASTCACHE_SHARDSIZE c id tv_sec = .ok (item.data, c)) := by
  refine ⟨?_, ?_, ?_⟩
  · intro h; simp [CacheItem.expired, h]
  · intro h; simp [CacheItem.expired, h]
  · intro h
    have he : item.expired tv_sec = false := by
      by_cases h0 : item.expiration = 0
      · simp [CacheItem.expired, h0]
      · simp [CacheItem.expired, h0, h]
    exact ⟨he, fun hash n c id hN hst => get_of_live hash c hN id tv_sec hst he⟩

/-- C7 at the concrete cache: key 261 expires after second 100 and is read at second 100. -/
theorem expired_strict_witness :
    ({ data := some 61, expiration := 100 } : CacheItem Nat).expired 100 = false ∧
    get demo_hash 256 demo_cache 261 100 = .ok (some 61, demo_cache) :=
  ⟨((@expired_strict Nat Nat _ { data := some 61, expiration := 100 } 100).2.2 rfl).1,
    ((expired_strict { data := some 61, expiration := 100 } 100).2.2 rfl).2
      demo_hash 256 demo_cache 261 (by decide) demo_stored_261⟩

/-- C8: `exists` and `get` on the same cache, key and second of the clock end in the same
cache; `exists` returns 1 when `get` returns a non-empty pointer and 0 when it returns the
empty pointer; for a present key whose entry is expired both return 0 and empty, and the
resulting cache is the old one with the key removed from its shard. -/
theorem exists_as_get (hash : K → Nat) (FASTCACHE_SHARDSIZE : Nat) (c : StorageCache K T)
    (hN : 0 < FASTCACHE_SHARDSIZE) (hlen : c.shards.length = FASTCACHE_SHARDSIZE)
    (id : K) (tv_sec : Int) :
    ∃ p r c1 shard, c.shards[hash id % FASTCACHE_SHARDSIZE]? = some shard ∧
      get hash FASTCACHE_SHARDSIZE c id tv_sec = .ok (p, c1) ∧
      exists_ hash FASTCACHE_SHARDSIZE c id tv_sec = .ok (r, c1) ∧
      (r = 1 ↔ p ≠ none) ∧ (r = 0 ↔ p = none) ∧
      (∀ item, shard.map.find id = some item → item.expired tv_sec = true →
        r = 0 ∧ p = none ∧
        c1 = { shards := c.shards.set (hash id % FASTCACHE_SHARDSIZE)
                 { map := shard.map.filter (fun e => decide (e.1 ≠ id)) } } ∧
        stored hash FASTCACHE_SHARDSIZE c1 id = none) := by
  obtain ⟨shard, hs⟩ := shard_at hash c hN hlen id
  have hget := locked_eq hash c hN id hs (get_body id tv_sec)
  refine ⟨(get_body id tv_sec shard).1, if (get_body id tv_sec shard).1.isSome then 1 else 0,
    _, shard, hs, hget, ?_, ?_, ?_, ?_⟩
  · simp only [exists_, get, hget]
  · cases (get_body id tv_sec shard).1 <;> simp
  · cases (get_body id tv_sec shard).1 <;> simp
  · intro item hf he
    rw [get_body_expired id tv_sec hf he]
    refine ⟨by simp, rfl, rfl, ?_⟩
    rw [stored_set_shard hash FASTCACHE_SHARDSIZE c hs, if_pos rfl]
    exact StdMap.find_filter_ne_self _ _

/-- C8 at the concrete cache: key 261 at second 101, when its entry is expired. -/
theorem exists_as_get_witness :
    (0 < 256 ∧ demo_cache.shards.length = 256) ∧
    ∃ p r c1 shard, demo_cache.shards[demo_hash 261 % 256]? = some shard ∧
      get demo_hash 256 demo_cache 261 101 = .ok (p, c1) ∧
      exists_ demo_hash 256 demo_cache 261 101 = .ok (r, c1) ∧
      (r = 1 ↔ p ≠ none) ∧ (r = 0 ↔ p = none) ∧
      (∀ item, shard.map.find 261 = some item → item.expired 101 = true →
        r = 0 ∧ p = none ∧
        c1 = { shards := demo_cache.shards.set (demo_hash 261 % 256)
                 { map := shard.map.filter (fun e => decide (e.1 ≠ 261)) } } ∧
        stored demo_hash 256 c1 261 = none) :=
  ⟨⟨by decide, demo_length⟩,
    exists_as_get demo_hash 256 demo_cache (by decide) demo_length 261 101⟩

/-- C9: in a cache whose maps hold every key at most once, `del` returns 1 when the key
is present in its shard and 0 when it is not, and does not look at the expiration; after it
the shard holds no entry for the key and `get` returns the empty pointer at every second;
when the key was absent the cache is unchanged. It does not raise. -/
theorem del_outcomes (hash : K → Nat) (FASTCACHE_SHARDSIZE : Nat) (c : StorageCache K T)
    (hN : 0 < FASTCACHE_SHARDSIZE) (hlen : c.shards.length = FASTCACHE_SHARDSIZE)
    (hu : ∀ shard ∈ c.shards, shard.map.unique) (id : K) :
    ∃ shard c1, c.shards[hash id % FASTCACHE_SHARDSIZE]? = some shard ∧
      del hash FASTCACHE_SHARDSIZE c id =
        .ok ((if (shard.map.find id).isSome then 1 else 0), c1) ∧
      c1.shards = c.shards.set (hash id % FASTCACHE_SHARDSIZE)
        { map := shard.map.filter (fun e => decide (e.1 ≠ id)) } ∧
      stored hash FASTCACHE_SHARDSIZE c1 id = none ∧
      (∀ tv_sec : Int, get hash FASTCACHE_SHARDSIZE c1 id tv_sec = .ok (none, c1)) ∧
      (shard.map.find id = none → c1 = c) := by
  obtain ⟨shard, hs⟩ := shard_at hash c hN hlen id
  have hi : hash id % FASTCACHE_SHARDSIZE < c.shards.length := (List.getElem?_eq_some.1 hs).1
  have hmem : shard ∈ c.shards := List.mem_iff_getElem?.2 ⟨_, hs⟩
  have hs1 : (c.shards.set (hash id % FASTCACHE_SHARDSIZE)
      ({ map := shard.map.filter (fun e => decide (e.1 ≠ id)) } : Shard K T))[
        hash id % FASTCACHE_SHARDSIZE]? =
      some { map := shard.map.filter (fun e => decide (e.1 ≠ id)) } :=
    List.getElem?_set_self hi
  refine ⟨shard, ⟨c.shards.set (hash id % FASTCACHE_SHARDSIZE)
    { map := shard.map.filter (fun e => decide (e.1 ≠ id)) }⟩, hs, ?_, rfl, ?_, ?_, ?_⟩
  · rw [del, locked_eq hash c hN id hs]
    simp only [del_body, StdMap.erase, StdMap.length_filter_eq_of_unique (hu shard hmem) id]
  · simp only [stored, hs1]
    exact StdMap.find_filter_ne_self _ _
  · intro tv_sec
    exact get_of_absent hash _ hN id tv_sec hs1 (StdMap.find_filter_ne_self _ _)
  · intro hf
    rw [StdMap.filter_ne_of_find_none hf]
    have : ({ map := shard.map } : Shard K T) = shard := rfl
    rw [this, set_shard_self hs]

/-- C9 at the concrete cache: key 261 is deleted. -/
theorem del_outcomes_witness :
    (0 < 256 ∧ demo_cache.shards.length = 256 ∧
      ∀ shard ∈ demo_cache.shards, shard.map.unique) ∧
    ∃ shard c1, demo_cache.shards[demo_hash 261 % 256]? = some shard ∧
      del demo_hash 256 demo_cache 261 =
        .ok ((if (shard.map.find 261).isSome then 1 else 0), c1) ∧
      c1.shards = demo_cache.shards.set (demo_hash 261 % 256)
        { map := shard.map.filter (fun e => decide (e.1 ≠ 261)) } ∧
      stored demo_hash 256 c1 261 = none ∧
      (∀ tv_sec : Int, get demo_hash 256 c1 261 tv_sec = .ok (none, c1)) ∧
      (shard.map.find 261 = none → c1 = demo_cache) :=
  ⟨⟨by decide, demo_length, demo_unique⟩,
    del_outcomes demo_hash 256 demo_cache (by decide) demo_length demo_unique 261⟩

/-- C10: in every cache reachable from the freshly constructed one by calls and curator
steps, `keySet` lists a key exactly when some shard's map holds an entry for it, lists no
key twice, and lists a key whose entry is expired but still stored; the call leaves the
cache as it is. After `set` of pairwise different keys into the fresh cache, `keySet` is a
permutation of those keys. -/
theorem keySet_exact (hash : K → Nat) (FASTCACHE_SHARDSIZE : Nat)
    (hN : 0 < FASTCACHE_SHARDSIZE) (c : StorageCache K T)
    (hr : Reachable hash FASTCACHE_SHARDSIZE c) :
    (∀ k, k ∈ keySet c ↔ ∃ shard ∈ c.shards, ∃ item, (k, item) ∈ shard.map) ∧
    (keySet c).Nodup ∧
    (∀ (k : K) (item : CacheItem T) (tv_sec : Int),
      stored hash FASTCACHE_SHARDSIZE c k = some item → item.expired tv_sec = true →
      k ∈ keySet c) ∧
    (Op.keySet : Op K T).run hash FASTCACHE_SHARDSIZE c = .ok c ∧
    (∀ entries : List (K × shared_ptr T × Int), (entries.map Prod.fst).Nodup →
      ∃ c1, run_all hash FASTCACHE_SHARDSIZE
          (entries.map (fun e => Op.set e.1 e.2.1 e.2.2 FASTCACHE_WRITEMODE_WRITE_ALWAYS))
          (new FASTCACHE_SHARDSIZE) = .ok c1 ∧
        (keySet c1).Perm (entries.map Prod.fst)) := by
  have hc := routed_of_reachable hash hN hr
  refine ⟨mem_keySet_iff c, keySet_nodup_of_routed hc, ?_, rfl, ?_⟩
  · intro k item tv_sec hst _
    rw [stored_isSome_iff_mem_keySet hc, hst]
    simp
  · intro entries hnodup
    obtain ⟨c1, h1, hc1, hk1⟩ := run_sets hash hN entries
      (new FASTCACHE_SHARDSIZE) (routed_new hash FASTCACHE_SHARDSIZE)
    refine ⟨c1, h1, ?_⟩
    rw [List.perm_ext_iff_of_nodup (keySet_nodup_of_routed hc1) hnodup]
    intro k
    rw [hk1]
    simp [keySet_new]

/-- C10 at the concrete cache, which two calls of `set` reach from the fresh cache. -/
theorem keySet_exact_witness :
    (0 < 256 ∧ Reachable demo_hash 256 demo_cache) ∧
    ((∀ k, k ∈ keySet demo_cache ↔
        ∃ shard ∈ demo_cache.shards, ∃ item, (k, item) ∈ shard.map) ∧
    (keySet demo_cache).Nodup ∧
    (∀ (k : Nat) (item : CacheItem Nat) (tv_sec : Int),
      stored demo_hash 256 demo_cache k = some item → item.expired tv_sec = true →
      k ∈ keySet demo_cache) ∧
    (Op.keySet : Op Nat Nat).run demo_hash 256 demo_cache = .ok demo_cache ∧
    (∀ entries : List (Nat × shared_ptr Nat × Int), (entries.map Prod.fst).Nodup →
      ∃ c1, run_all demo_hash 256
          (entries.map (fun e => Op.set e.1 e.2.1 e.2.2 FASTCACHE_WRITEMODE_WRITE_ALWAYS))
          (new 256) = .ok c1 ∧
        (keySet c1).Perm (entries.map Prod.fst))) :=
  ⟨⟨by decide, demo_reachable⟩, keySet_exact demo_hash 256 (by decide) demo_cache demo_reachable⟩

/-! ## Counting -/

theorem length_keySet (c : StorageCache K T) : (keySet c).length = metrics c := by
  rw [keySet_eq_flatten, List.length_flatten, metrics_eq_sum, List.map_map]
  congr 1
  apply List.map_congr_left
  intro shard _
  simp

theorem mem_keySet_of_get {hash : K → Nat} {FASTCACHE_SHARDSIZE : Nat} {c : StorageCache K T}
    {k : K} {tv_sec : Int} {v : T} {c1 : StorageCache K T}
    (h : get hash FASTCACHE_SHARDSIZE c k tv_sec = .ok (some v, c1)) : k ∈ keySet c := by
  by_cases hN : FASTCACHE_SHARDSIZE = 0
  · simp [get, locked, calc_index, hN] at h
  · cases hs : c.shards[hash k % FASTCACHE_SHARDSIZE]? with
    | none => simp [get, locked, calc_index, hN, hs] at h
    | some shard =>
      cases hf : StdMap.find shard.map k with
      | none =>
        rw [get, locked_eq hash c (Nat.pos_of_ne_zero hN) k hs, get_body_absent k tv_sec hf] at h
        simp at h
      | some item =>
        rw [mem_keySet_iff]
        exact ⟨shard, List.mem_iff_getElem?.2 ⟨_, hs⟩, item, StdMap.mem_of_find_eq_some hf⟩

theorem demo_stored_5 :
    stored demo_hash 256 demo_cache 5 = some { data := some 50, expiration := 0 } := by
  have h : demo_hash 5 % 256 = 5 := by decide
  simp only [stored, h, demo_shard_five]
  decide

/-- C11: `metrics` is the sum over the shards of the number of entries of the shard's map,
whatever their expirations, and leaves the cache as it is; it equals the length of
`keySet`; and at every second of the clock, any keys, pairwise different, for each of which
`get` returns a non-empty pointer, are at most `metrics` many. -/
theorem metrics_upper_bound (hash : K → Nat) (FASTCACHE_SHARDSIZE : Nat)
    (c : StorageCache K T) (tv_sec : Int) (ks : List K) (hnodup : ks.Nodup)
    (hlive : ∀ k ∈ ks, ∃ v c1, get hash FASTCACHE_SHARDSIZE c k tv_sec = .ok (some v, c1)) :
    metrics c = (c.shards.map (fun shard => shard.map.length)).sum ∧
    (Op.metrics : Op K T).run hash FASTCACHE_SHARDSIZE c = .ok c ∧
    metrics c = (keySet c).length ∧
    ks.length ≤ metrics c := by
  refine ⟨metrics_eq_sum c, rfl, (length_keySet c).symm, ?_⟩
  rw [← length_keySet]
  apply List.Subperm.length_le
  apply List.subperm_of_subset hnodup
  intro k hk
  obtain ⟨v, c1, hget⟩ := hlive k hk
  exact mem_keySet_of_get hget

/-- C11 at the concrete cache: keys 5 and 261 are both live at second 50. -/
theorem metrics_upper_bound_witness :
    (([5, 261] : List Nat).Nodup ∧
      ∀ k ∈ ([5, 261] : List Nat), ∃ v c1, get demo_hash 256 demo_cache k 50 = .ok (some v, c1)) ∧
    (metrics demo_cache = (demo_cache.shards.map (fun shard => shard.map.length)).sum ∧
    (Op.metrics : Op Nat Nat).run demo_hash 256 demo_cache = .ok demo_cache ∧
    metrics demo_cache = (keySet demo_cache).length ∧
    ([5, 261] : List Nat).length ≤ metrics demo_cache) :=
  have hlive : ∀ k ∈ ([5, 261] : List Nat),
      ∃ v c1, get demo_hash 256 demo_cache k 50 = .ok (some v, c1) := by
    intro k hk
    simp only [List.mem_cons, List.mem_singleton, List.not_mem_nil, or_false] at hk
    rcases hk with rfl | rfl
    · exact ⟨50, demo_cache,
        get_of_live demo_hash demo_cache (by decide) 5 50 demo_stored_5 (by decide)⟩
    · exact ⟨61, demo_cache,
        get_of_live demo_hash demo_cache (by decide) 261 50 demo_stored_261 (by decide)⟩
  ⟨⟨by decide, hlive⟩, metrics_upper_bound demo_hash 256 demo_cache 50 [5, 261] (by decide) hlive⟩

/-- C12: when `FASTCACHE_SHARDSIZE` is positive, `calc_index` of a key is the hash of the
key modulo `FASTCACHE_SHARDSIZE`, a value fixed by the key alone, and it is below the number
of shards the constructor creates; in every cache reachable from the constructed one the
number of shards is still `FASTCACHE_SHARDSIZE`, the shard of that index exists, and `set`,
`get` and `del` of the key do not raise. -/
theorem calc_index_in_range (hash : K → Nat) (FASTCACHE_SHARDSIZE : Nat)
    (hN : 0 < FASTCACHE_SHARDSIZE) (id : K) :
    calc_index hash FASTCACHE_SHARDSIZE id = .ok (hash id % FASTCACHE_SHARDSIZE) ∧
    (new FASTCACHE_SHARDSIZE : StorageCache K T).shards.length = FASTCACHE_SHARDSIZE ∧
    hash id % FASTCACHE_SHARDSIZE < (new FASTCACHE_SHARDSIZE : StorageCache K T).shards.length ∧
    ∀ c : StorageCache K T, Reachable hash FASTCACHE_SHARDSIZE c →
      c.shards.length = FASTCACHE_SHARDSIZE ∧
      (∃ shard, c.shards[hash id % FASTCACHE_SHARDSIZE]? = some shard) ∧
      (∀ val expiration mode, ∃ r,
        set hash FASTCACHE_SHARDSIZE c id val expiration mode = .ok r) ∧
      (∀ tv_sec, ∃ r, get hash FASTCACHE_SHARDSIZE c id tv_sec = .ok r) ∧
      (∃ r, del hash FASTCACHE_SHARDSIZE c id = .ok r) := by
  have hlen0 : (new FASTCACHE_SHARDSIZE : StorageCache K T).shards.length =
      FASTCACHE_SHARDSIZE := by simp [new]
  refine ⟨?_, hlen0, ?_, ?_⟩
  · simp [calc_index, Nat.pos_iff_ne_zero.1 hN]
  · rw [hlen0]; exact Nat.mod_lt _ hN
  · intro c hr
    have hlen := (routed_of_reachable hash hN hr).1
    obtain ⟨shard, hs⟩ := shard_at hash c hN hlen id
    refine ⟨hlen, ⟨shard, hs⟩, ?_, ?_, ?_⟩
    · intro val expiration mode
      exact ⟨_, locked_eq hash c hN id hs _⟩
    · intro tv_sec
      exact ⟨_, locked_eq hash c hN id hs _⟩
    · exact ⟨_, locked_eq hash c hN id hs _⟩

/-- C12 at the default shard count 256 and key 261. -/
theorem calc_index_in_range_witness :
    0 < 256 ∧
    (calc_index demo_hash 256 261 = .ok (demo_hash 261 % 256) ∧
    (new 256 : StorageCache Nat Nat).shards.length = 256 ∧
    demo_hash 261 % 256 < (new 256 : StorageCache Nat Nat).shards.length ∧
    ∀ c : StorageCache Nat Nat, Reachable demo_hash 256 c →
      c.shards.length = 256 ∧
      (∃ shard, c.shards[demo_hash 261 % 256]? = some shard) ∧
      (∀ val expiration mode, ∃ r, set demo_hash 256 c 261 val expiration mode = .ok r) ∧
      (∀ tv_sec, ∃ r, get demo_hash 256 c 261 tv_sec = .ok r) ∧
      (∃ r, del demo_hash 256 c 261 = .ok r)) :=
  ⟨by decide, calc_index_in_range demo_hash 256 (by decide) 261⟩

/-! ## The curator -/

theorem find_filter_value {m : StdMap K T} (hu : StdMap.unique m) (p : CacheItem T → Bool)
    (k : K) :
    StdMap.find (m.filter (fun e => p e.2)) k = (StdMap.find m k).filter p := by
  induction m with
  | nil => rfl
  | cons a rest ih =>
    obtain ⟨k1, v⟩ := a
    have hur : StdMap.unique rest := (List.nodup_cons.1 hu).2
    by_cases hk : k1 = k
    · have hnot : StdMap.find rest k = none := by
        rw [StdMap.find_eq_none_iff]
        intro e he hfst
        apply (List.nodup_cons.1 hu).1
        exact List.mem_map.2 ⟨e, he, by simp [hfst, hk]⟩
      cases hp : p v with
      | true =>
        rw [List.filter_cons_of_pos (by simpa using hp)]
        simp [StdMap.find, hk, Option.filter, hp]
      | false =>
        rw [List.filter_cons_of_neg (by simp [hp]), ih hur, hnot]
        simp [StdMap.find, hk, Option.filter, hp]
    · cases hp : p v with
      | true =>
        rw [List.filter_cons_of_pos (by simpa using hp)]
        simp only [StdMap.find, hk, if_false]
        exact ih hur
      | false =>
        rw [List.filter_cons_of_neg (by simp [hp]), ih hur]
        simp only [StdMap.find, hk, if_false]

/-- C13: `cull_expired_keys` is a total function and leaves exactly the entries that are not
expired at the second `tv_sec`, in their old order: an entry is in the culled map exactly
when it was in the map and is not expired, so no entry is added or altered; in a map that
holds every key once, the lookup of a key afterwards finds its old entry when that is not
expired and finds nothing otherwise. -/
theorem cull_expired_keys_exact (shard : Shard K T) (tv_sec : Int) :
    (shard.cull_expired_keys tv_sec).map =
      shard.map.filter (fun e => !e.2.expired tv_sec) ∧
    (∀ e, e ∈ (shard.cull_expired_keys tv_sec).map ↔
      e ∈ shard.map ∧ e.2.expired tv_sec = false) ∧
    (shard.cull_expired_keys tv_sec).map.Sublist shard.map ∧
    (shard.map.unique →
      (shard.cull_expired_keys tv_sec).map.unique ∧
      ∀ k, StdMap.find (shard.cull_expired_keys tv_sec).map k =
        (StdMap.find shard.map k).filter (fun item => !item.expired tv_sec)) := by
  have heq : (shard.cull_expired_keys tv_sec).map =
      shard.map.filter (fun e => !e.2.expired tv_sec) := by
    simp only [Shard.cull_expired_keys, cull_loop_eq_filter]
  refine ⟨heq, ?_, ?_, ?_⟩
  · intro e
    rw [heq, List.mem_filter]
    simp
  · rw [heq]
    exact List.filter_sublist _
  · intro hu
    rw [heq]
    exact ⟨StdMap.unique_filter hu _,
      fun k => find_filter_value hu (fun item => !item.expired tv_sec) k⟩

/-- C13 at the shard with key 5, without expiration, and key 261, expiring after second
100, culled at second 101. -/
theorem cull_expired_keys_exact_witness :
    StdMap.unique ([(5, { data := some 50, expiration := 0 }),
        (261, { data := some 61, expiration := 100 })] : StdMap Nat Nat) ∧
    (Shard.cull_expired_keys ({ map := [(5, { data := some 50, expiration := 0 }),
        (261, { data := some 61, expiration := 100 })] } : Shard Nat Nat) 101).map.unique ∧
    ∀ k, StdMap.find (Shard.cull_expired_keys ({ map := [(5, { data := some 50, expiration := 0 }),
        (261, { data := some 61, expiration := 100 })] } : Shard Nat Nat) 101).map k =
      (StdMap.find ([(5, { data := some 50, expiration := 0 }),
        (261, { data := some 61, expiration := 100 })] : StdMap Nat Nat) k).filter
          (fun item => !item.expired 101) :=
  have hu : StdMap.unique ([(5, { data := some 50, expiration := 0 }),
      (261, { data := some 61, expiration := 100 })] : StdMap Nat Nat) := by
    simp [StdMap.unique]
  ⟨hu, (cull_expired_keys_exact ({ map := [(5, { data := some 50, expiration := 0 }),
      (261, { data := some 61, expiration := 100 })] } : Shard Nat Nat) 101).2.2.2 hu⟩

theorem metrics_new (FASTCACHE_SHARDSIZE : Nat) :
    metrics (new FASTCACHE_SHARDSIZE : StorageCache K T) = 0 := by
  rw [metrics_eq_sum]
  apply List.sum_eq_zero
  intro x hx
  obtain ⟨shard, hshard, rfl⟩ := List.mem_map.1 hx
  rw [new] at hshard
  rw [List.eq_of_mem_replicate hshard]
  rfl

theorem metrics_curate_sweep_of_expired (c : StorageCache K T) (tv_sec : Int)
    (h : ∀ shard ∈ c.shards, ∀ e ∈ shard.map, e.2.expired tv_sec = true) :
    metrics (curate_sweep c tv_sec) = 0 := by
  rw [metrics_eq_sum]
  apply List.sum_eq_zero
  intro x hx
  obtain ⟨shard1, hshard1, rfl⟩ := List.mem_map.1 hx
  simp only [curate_sweep] at hshard1
  obtain ⟨shard, hshard, rfl⟩ := List.mem_map.1 hshard1
  simp only [Shard.cull_expired_keys, cull_loop_eq_filter, List.length_eq_zero,
    List.filter_eq_nil_iff]
  intro e he
  simp [h shard hshard e he]

theorem curate_sweep_of_live (c : StorageCache K T) (tv_sec : Int)
    (h : ∀ shard ∈ c.shards, ∀ e ∈ shard.map, e.2.expired tv_sec = false) :
    curate_sweep c tv_sec = c := by
  have hmap : c.shards.map (fun shard => shard.cull_expired_keys tv_sec) = c.shards := by
    conv_rhs => rw [← List.map_id c.shards]
    apply List.map_congr_left
    intro shard hshard
    have : shard.map.filter (fun e => !e.2.expired tv_sec) = shard.map := by
      rw [List.filter_eq_self]
      intro e he
      simp [h shard hshard e he]
    simp only [Shard.cull_expired_keys, cull_loop_eq_filter, this, id]
  simp only [curate_sweep, hmap]

/-- A `set` whose expiration is past and not 0 keeps a cache in which every entry is
expired in that state. -/
theorem run_set_keeps_expired (hash : K → Nat) {FASTCACHE_SHARDSIZE : Nat}
    (hN : 0 < FASTCACHE_SHARDSIZE) (tv_sec : Int) (c : StorageCache K T) (op : Op K T)
    (hc : c.shards.length = FASTCACHE_SHARDSIZE ∧
      ∀ shard ∈ c.shards, ∀ e ∈ shard.map, e.2.expired tv_sec = true)
    (hop : ∃ id val expiration mode, op = Op.set id val expiration mode ∧
      expiration ≠ 0 ∧ expiration < tv_sec) :
    ∃ c1, op.run hash FASTCACHE_SHARDSIZE c = .ok c1 ∧
      (c1.shards.length = FASTCACHE_SHARDSIZE ∧
        ∀ shard ∈ c1.shards, ∀ e ∈ shard.map, e.2.expired tv_sec = true) := by
  obtain ⟨hlen, hexp⟩ := hc
  obtain ⟨id, val, expiration, mode, rfl, h0, hpast⟩ := hop
  obtain ⟨shard, hs⟩ := shard_at hash c hN hlen id
  have hmem : shard ∈ c.shards := List.mem_iff_getElem?.2 ⟨_, hs⟩
  have hitem : ({ data := val, expiration := expiration } : CacheItem T).expired tv_sec
      = true := by
    simp [CacheItem.expired, h0, hpast]
  refine ⟨_, run_set_eq hash c hN id val expiration mode hs, by simp [hlen], ?_⟩
  intro shard1 hshard1 e he
  rcases List.mem_or_eq_of_mem_set hshard1 with h1 | h1
  · exact hexp shard1 h1 e he
  · rcases set_body_cases id { data := val, expiration := expiration } mode shard with h2 | h2
    · rw [h1, h2] at he
      exact hexp shard hmem e he
    · rw [h1, h2] at he
      rcases List.mem_cons.1 ((StdMap.place_perm id _ _).mem_iff.1 he) with h3 | h3
      · rw [h3]; exact hitem
      · exact hexp shard hmem e (List.mem_filter.1 h3).1

/-- C14 as stated fails at expiration 0: 0 is in the past of second 1700000000, yet the
entry `set` with expiration 0 into the fresh cache survives the sweep of the curator at that
second, and `metrics` is 1. -/
theorem curator_convergence_counterexample :
    (0 : Int) < 1700000000 ∧
    ∃ c1, run_all demo_hash 256 [Op.set 7 (some 70) 0 FASTCACHE_WRITEMODE_WRITE_ALWAYS]
        (new 256) = .ok c1 ∧
      metrics (curate_sweep c1 1700000000) = 1 := by
  have hN : 0 < 256 := by decide
  have i7 : demo_hash 7 % 256 = 7 := by decide
  have h0 : (new 256 : StorageCache Nat Nat).shards[demo_hash 7 % 256]? = some { map := [] } := by
    rw [new, List.getElem?_replicate]; rfl
  have r1 := run_set_eq demo_hash (new 256) hN 7 (some 70) 0 FASTCACHE_WRITEMODE_WRITE_ALWAYS h0
  have e1 : (set_body 7 { data := some 70, expiration := 0 } FASTCACHE_WRITEMODE_WRITE_ALWAYS
      ({ map := [] } : Shard Nat Nat)).2 = { map := [(7, { data := some 70, expiration := 0 })] } := by
    decide
  rw [e1] at r1
  refine ⟨by decide, ⟨(new 256 : StorageCache Nat Nat).shards.set (demo_hash 7 % 256)
    { map := [(7, { data := some 70, expiration := 0 })] }⟩, ?_, ?_⟩
  · simp only [run_all, r1]
  rw [curate_sweep_of_live]
  · have hm := metrics_set_shard (new 256 : StorageCache Nat Nat) h0
      { map := [(7, { data := some 70, expiration := 0 })] }
    have hl0 : (({ map := [] } : Shard Nat Nat).map).length = 0 := rfl
    have hl1 : (({ map := [(7, { data := some 70, expiration := 0 })] } :
      Shard Nat Nat).map).length = 1 := rfl
    rw [metrics_new, hl0, hl1] at hm
    omega
  · intro shard hshard e he
    rcases List.mem_or_eq_of_mem_set hshard with h1 | h1
    · rw [new] at h1
      rw [List.eq_of_mem_replicate h1] at he
      simp at he
    · rw [h1] at he
      simp only [List.mem_singleton] at he
      rw [he]
      rfl

/-- C14, amended: after `set` of any number of entries into the fresh cache, all with
expirations other than 0 and strictly before the second `tv_sec`, one sweep of the curator
at `tv_sec` leaves `metrics` at 0, no `get` or `exists` having been called; before the
sweep `metrics` is the number of entries when their keys are pairwise different. -/
theorem curator_convergence (hash : K → Nat) (FASTCACHE_SHARDSIZE : Nat)
    (hN : 0 < FASTCACHE_SHARDSIZE) (tv_sec : Int) (entries : List (K × shared_ptr T × Int))
    (hpast : ∀ e ∈ entries, e.2.2 ≠ 0 ∧ e.2.2 < tv_sec) :
    ∃ c1, run_all hash FASTCACHE_SHARDSIZE
        (entries.map (fun e => Op.set e.1 e.2.1 e.2.2 FASTCACHE_WRITEMODE_WRITE_ALWAYS))
        (new FASTCACHE_SHARDSIZE) = .ok c1 ∧
      ((entries.map Prod.fst).Nodup → metrics c1 = entries.length) ∧
      (Op.curate_sweep tv_sec : Op K T).run hash FASTCACHE_SHARDSIZE c1 =
        .ok (curate_sweep c1 tv_sec) ∧
      metrics (curate_sweep c1 tv_sec) = 0 := by
  obtain ⟨c1, hrun, hlen1, hexp1⟩ := run_all_induct hash FASTCACHE_SHARDSIZE
    (fun c => c.shards.length = FASTCACHE_SHARDSIZE ∧
      ∀ shard ∈ c.shards, ∀ e ∈ shard.map, e.2.expired tv_sec = true)
    (fun op => ∃ id val expiration mode, op = Op.set id val expiration mode ∧
      expiration ≠ 0 ∧ expiration < tv_sec)
    (fun c op hc hop => run_set_keeps_expired hash hN tv_sec c op hc hop)
    (entries.map (fun e => Op.set e.1 e.2.1 e.2.2 FASTCACHE_WRITEMODE_WRITE_ALWAYS))
    (new FASTCACHE_SHARDSIZE)
    ⟨by simp [new], by
      intro shard hshard e he
      rw [new] at hshard
      rw [List.eq_of_mem_replicate hshard] at he
      simp at he⟩
    (by
      intro op hop
      obtain ⟨e, he, rfl⟩ := List.mem_map.1 hop
      exact ⟨e.1, e.2.1, e.2.2, _, rfl, hpast e he⟩)
  refine ⟨c1, hrun, ?_, rfl, metrics_curate_sweep_of_expired c1 tv_sec hexp1⟩
  intro hnodup
  obtain ⟨c2, h2, hc2, hk2⟩ := run_sets hash hN entries
    (new FASTCACHE_SHARDSIZE) (routed_new hash FASTCACHE_SHARDSIZE)
  rw [hrun] at h2
  cases h2
  have hperm : (keySet c1).Perm (entries.map Prod.fst) := by
    rw [List.perm_ext_iff_of_nodup (keySet_nodup_of_routed hc2) hnodup]
    intro k
    rw [hk2]
    simp [keySet_new]
  rw [← length_keySet, hperm.length_eq, List.length_map]

/-- C14, amended, at 256 shards: keys 7 and 263 (one shard) and key 8, all expired at
second 100. -/
theorem curator_convergence_witness :
    (0 < 256 ∧ ∀ e ∈ ([(7, some 70, 99), (263, some 1, 50), (8, none, -3)] :
        List (Nat × shared_ptr Nat × Int)), e.2.2 ≠ 0 ∧ e.2.2 < 100) ∧
    ∃ c1, run_all demo_hash 256
        (([(7, some 70, 99), (263, some 1, 50), (8, none, -3)] :
          List (Nat × shared_ptr Nat × Int)).map
          (fun e => Op.set e.1 e.2.1 e.2.2 FASTCACHE_WRITEMODE_WRITE_ALWAYS))
        (new 256) = .ok c1 ∧
      ((([(7, some 70, 99), (263, some 1, 50), (8, none, -3)] :
          List (Nat × shared_ptr Nat × Int)).map Prod.fst).Nodup →
        metrics c1 = ([(7, some 70, 99), (263, some 1, 50), (8, none, -3)] :
          List (Nat × shared_ptr Nat × Int)).length) ∧
      (Op.curate_sweep 100 : Op Nat Nat).run demo_hash 256 c1 = .ok (curate_sweep c1 100) ∧
      metrics (curate_sweep c1 100) = 0 :=
  ⟨⟨by decide, by decide⟩,
    curator_convergence demo_hash 256 (by decide) 100 _ (by decide)⟩

/-! ## Sequences of two calls -/

theorem find_of_stored {hash : K → Nat} {FASTCACHE_SHARDSIZE : Nat} {c : StorageCache K T}
    {k : K} {shard : Shard K T}
    (hs : c.shards[hash k % FASTCACHE_SHARDSIZE]? = some shard) :
    StdMap.find shard.map k = stored hash FASTCACHE_SHARDSIZE c k := by
  simp only [stored, hs]

theorem expired_mono {item : CacheItem T} {tv_sec tv_sec2 : Int}
    (h : item.expired tv_sec = true) (hle : tv_sec ≤ tv_sec2) :
    item.expired tv_sec2 = true := by
  by_cases h0 : item.expiration = 0
  · simp [CacheItem.expired, h0] at h
  · simp only [CacheItem.expired, h0, if_false, decide_eq_true_eq] at h ⊢
    omega

theorem demo_stored_7 : stored demo_hash 256 demo_cache 7 = none := by
  have h : demo_hash 7 % 256 = 7 := by decide
  have hs : demo_cache.shards[7]? = some { map := [] } := by
    rw [demo_cache, List.getElem?_set_ne (by decide), List.getElem?_replicate]
    rfl
  simp only [stored, h, hs]
  rfl

/-- C15: first writer wins. When the key is absent from its shard, `set(k, v1)` in mode
ONLY_WRITE_IF_NOT_SET (expiration 0) returns 1, the following `set(k, v2)` in the same mode
returns 0 and leaves the cache as the first left it, and the following `get(k)` returns
`v1`, at every second of the clock. -/
theorem first_writer_wins (hash : K → Nat) (FASTCACHE_SHARDSIZE : Nat) (c : StorageCache K T)
    (hN : 0 < FASTCACHE_SHARDSIZE) (hlen : c.shards.length = FASTCACHE_SHARDSIZE)
    (k : K) (v1 v2 : shared_ptr T) (habs : stored hash FASTCACHE_SHARDSIZE c k = none) :
    ∃ c1, set hash FASTCACHE_SHARDSIZE c k v1 0 FASTCACHE_WRITEMODE_ONLY_WRITE_IF_NOT_SET
        = .ok (1, c1) ∧
      set hash FASTCACHE_SHARDSIZE c1 k v2 0 FASTCACHE_WRITEMODE_ONLY_WRITE_IF_NOT_SET
        = .ok (0, c1) ∧
      ∀ tv_sec : Int, get hash FASTCACHE_SHARDSIZE c1 k tv_sec = .ok (v1, c1) := by
  obtain ⟨shard, hs⟩ := shard_at hash c hN hlen k
  have hf : StdMap.find shard.map k = none := by rw [find_of_stored hs]; exact habs
  obtain ⟨c1, shard1, hset, -, hs1, hf1, -, -⟩ := set_written hash c hN k v1 0
    FASTCACHE_WRITEMODE_ONLY_WRITE_IF_NOT_SET hs
    (by rw [set_body_if_not_set_absent k _ hf, StdMap.filter_ne_of_find_none hf])
  refine ⟨c1, hset, ?_, ?_⟩
  · have hb := set_body_if_not_set_present k { data := v2, expiration := 0 } hf1
    rw [set, locked_eq_same hash c1 hN k hs1 _ (by rw [hb]), hb]
  · intro tv_sec
    have hst : stored hash FASTCACHE_SHARDSIZE c1 k = some { data := v1, expiration := 0 } := by
      rw [← find_of_stored hs1]; exact hf1
    exact get_of_live hash c1 hN k tv_sec hst (expired_of_no_expiration v1 tv_sec)

/-- C15 at the concrete cache: key 7 is absent. -/
theorem first_writer_wins_witness :
    (0 < 256 ∧ demo_cache.shards.length = 256 ∧ stored demo_hash 256 demo_cache 7 = none) ∧
    ∃ c1, set demo_hash 256 demo_cache 7 (some 1) 0 FASTCACHE_WRITEMODE_ONLY_WRITE_IF_NOT_SET
        = .ok (1, c1) ∧
      set demo_hash 256 c1 7 (some 2) 0 FASTCACHE_WRITEMODE_ONLY_WRITE_IF_NOT_SET
        = .ok (0, c1) ∧
      ∀ tv_sec : Int, get demo_hash 256 c1 7 tv_sec = .ok (some 1, c1) :=
  ⟨⟨by decide, demo_length, demo_stored_7⟩,
    first_writer_wins demo_hash 256 demo_cache (by decide) demo_length 7 (some 1) (some 2)
      demo_stored_7⟩

/-- C16: idempotent delete. In a cache whose maps hold every key at most once, `del(k)`
returns 0 and leaves the cache as it is when the key is absent from its shard, and returns
1 when it is present; a second `del(k)` right after the first returns 0, and the cache after
the second is the cache after the first. -/
theorem del_idempotent (hash : K → Nat) (FASTCACHE_SHARDSIZE : Nat) (c : StorageCache K T)
    (hN : 0 < FASTCACHE_SHARDSIZE) (hlen : c.shards.length = FASTCACHE_SHARDSIZE)
    (hu : ∀ shard ∈ c.shards, shard.map.unique) (k : K) :
    ∃ r1 c1, del hash FASTCACHE_SHARDSIZE c k = .ok (r1, c1) ∧
      del hash FASTCACHE_SHARDSIZE c1 k = .ok (0, c1) ∧
      (stored hash FASTCACHE_SHARDSIZE c k = none → r1 = 0 ∧ c1 = c) ∧
      (stored hash FASTCACHE_SHARDSIZE c k ≠ none → r1 = 1) := by
  obtain ⟨shard, hs⟩ := shard_at hash c hN hlen k
  have hi : hash k % FASTCACHE_SHARDSIZE < c.shards.length := (List.getElem?_eq_some.1 hs).1
  have hmem : shard ∈ c.shards := List.mem_iff_getElem?.2 ⟨_, hs⟩
  have hs1 : (c.shards.set (hash k % FASTCACHE_SHARDSIZE)
      (del_body k shard).2)[hash k % FASTCACHE_SHARDSIZE]? = some (del_body k shard).2 :=
    List.getElem?_set_self hi
  have hnone : StdMap.find (del_body k shard).2.map k = none := StdMap.find_filter_ne_self _ _
  have hb2 : del_body k (del_body k shard).2 = (0, (del_body k shard).2) := by
    have h1 : (del_body k shard).2.map.filter (fun e => decide (e.1 ≠ k)) =
        (del_body k shard).2.map := StdMap.filter_ne_of_find_none hnone
    have h2 : (del_body k shard).2.map.filter (fun e => decide (e.1 = k)) = [] :=
      StdMap.filter_eq_of_find_none hnone
    simp only [del_body, StdMap.erase] at h1 h2 ⊢
    rw [h1, h2]
    rfl
  refine ⟨(del_body k shard).1, _, locked_eq hash c hN k hs (del_body k), ?_, ?_, ?_⟩
  · rw [del, locked_eq_same hash ⟨_⟩ hN k hs1 _ (by rw [hb2]), hb2]
  · intro habs
    have hf : StdMap.find shard.map k = none := by rw [find_of_stored hs]; exact habs
    constructor
    · simp only [del_body, StdMap.erase, StdMap.filter_eq_of_find_none hf, List.length_nil]
    · have : (del_body k shard).2 = shard := by
        simp only [del_body, StdMap.erase, StdMap.filter_ne_of_find_none hf]
      rw [this, set_shard_self hs]
  · intro hpres
    rw [← find_of_stored hs] at hpres
    simp only [del_body, StdMap.erase, StdMap.length_filter_eq_of_unique (hu shard hmem) k]
    cases hf : StdMap.find shard.map k with
    | none => exact absurd hf hpres
    | some item => simp

/-- C16 at the concrete cache: key 261 is deleted twice. -/
theorem del_idempotent_witness :
    (0 < 256 ∧ demo_cache.shards.length = 256 ∧
      ∀ shard ∈ demo_cache.shards, shard.map.unique) ∧
    ∃ r1 c1, del demo_hash 256 demo_cache 261 = .ok (r1, c1) ∧
      del demo_hash 256 c1 261 = .ok (0, c1) ∧
      (stored demo_hash 256 demo_cache 261 = none → r1 = 0 ∧ c1 = demo_cache) ∧
      (stored demo_hash 256 demo_cache 261 ≠ none → r1 = 1) :=
  ⟨⟨by decide, demo_length, demo_unique⟩,
    del_idempotent demo_hash 256 demo_cache (by decide) demo_length demo_unique 261⟩

/-- C20: the conditional write modes test presence without reading the clock. When the key
is present with an entry that is expired at the second `tv_sec`, `set` in mode
ONLY_WRITE_IF_NOT_SET returns 0 and leaves the cache, the expired entry included, as it is,
and a following `get` at `tv_sec` or later returns the empty pointer; `set` in mode
ONLY_WRITE_IF_SET returns 1, and the shard then holds for the key exactly the new entry. -/
theorem conditional_write_ignores_expiration (hash : K → Nat) (FASTCACHE_SHARDSIZE : Nat)
    (c : StorageCache K T) (hN : 0 < FASTCACHE_SHARDSIZE)
    (hlen : c.shards.length = FASTCACHE_SHARDSIZE) (k : K) (v : shared_ptr T) (e : Int)
    (old : CacheItem T) (tv_sec : Int)
    (hst : stored hash FASTCACHE_SHARDSIZE c k = some old)
    (hexp : old.expired tv_sec = true) :
    set hash FASTCACHE_SHARDSIZE c k v e FASTCACHE_WRITEMODE_ONLY_WRITE_IF_NOT_SET
      = .ok (0, c) ∧
    (∀ tv_sec2 : Int, tv_sec ≤ tv_sec2 →
      ∃ c2, get hash FASTCACHE_SHARDSIZE c k tv_sec2 = .ok (none, c2) ∧
        stored hash FASTCACHE_SHARDSIZE c2 k = none) ∧
    ∃ c1 shard1, set hash FASTCACHE_SHARDSIZE c k v e FASTCACHE_WRITEMODE_ONLY_WRITE_IF_SET
        = .ok (1, c1) ∧
      c1.shards[hash k % FASTCACHE_SHARDSIZE]? = some shard1 ∧
      stored hash FASTCACHE_SHARDSIZE c1 k = some { data := v, expiration := e } ∧
      shard1.map.filter (fun x => decide (x.1 = k)) = [(k, { data := v, expiration := e })] := by
  obtain ⟨shard, hs⟩ := shard_at hash c hN hlen k
  have hf : StdMap.find shard.map k = some old := by rw [find_of_stored hs]; exact hst
  refine ⟨?_, ?_, ?_⟩
  · have hb := set_body_if_not_set_present k { data := v, expiration := e } hf
    rw [set, locked_eq_same hash c hN k hs _ (by rw [hb]), hb]
  · intro tv_sec2 hle
    refine ⟨_, get_of_expired hash c hN k tv_sec2 hs hf (expired_mono hexp hle), ?_⟩
    rw [stored_set_shard hash FASTCACHE_SHARDSIZE c hs, if_pos rfl]
    exact StdMap.find_filter_ne_self _ _
  · obtain ⟨c1, shard1, hset, -, hs1, hf1, heq, -⟩ := set_written hash c hN k v e
      FASTCACHE_WRITEMODE_ONLY_WRITE_IF_SET hs (set_body_if_set_present k _ hf)
    exact ⟨c1, shard1, hset, hs1, by rw [← find_of_stored hs1]; exact hf1, heq⟩

/-- C20 at the concrete cache: key 261 is expired at second 101. -/
theorem conditional_write_ignores_expiration_witness :
    (0 < 256 ∧ demo_cache.shards.length = 256 ∧
      stored demo_hash 256 demo_cache 261 = some { data := some 61, expiration := 100 } ∧
      ({ data := some 61, expiration := 100 } : CacheItem Nat).expired 101 = true) ∧
    (set demo_hash 256 demo_cache 261 (some 9) 500 FASTCACHE_WRITEMODE_ONLY_WRITE_IF_NOT_SET
      = .ok (0, demo_cache) ∧
    (∀ tv_sec2 : Int, 101 ≤ tv_sec2 →
      ∃ c2, get demo_hash 256 demo_cache 261 tv_sec2 = .ok (none, c2) ∧
        stored demo_hash 256 c2 261 = none) ∧
    ∃ c1 shard1, set demo_hash 256 demo_cache 261 (some 9) 500
        FASTCACHE_WRITEMODE_ONLY_WRITE_IF_SET = .ok (1, c1) ∧
      c1.shards[demo_hash 261 % 256]? = some shard1 ∧
      stored demo_hash 256 c1 261 = some { data := some 9, expiration := 500 } ∧
      shard1.map.filter (fun x => decide (x.1 = 261)) =
        [(261, { data := some 9, expiration := 500 })]) :=
  ⟨⟨by decide, demo_length, demo_stored_261, by decide⟩,
    conditional_write_ignores_expiration demo_hash 256 demo_cache (by decide) demo_length 261
      (some 9) 500 { data := some 61, expiration := 100 } 101 demo_stored_261 (by decide)⟩

/-! ## A shard count of zero -/

/-- C17 as stated fails: with a shard count of 0 the constructor does not fail but yields a
cache without shards, and routing a key on that cache divides by zero. -/
theorem zero_shards_counterexample :
    (new 0 : StorageCache Nat Nat) = { shards := [] } ∧
    calc_index demo_hash 0 5 = .error exception.division_by_zero ∧
    get demo_hash 0 (new 0 : StorageCache Nat Nat) 5 0 =
      .error exception.division_by_zero := by
  refine ⟨rfl, rfl, rfl⟩

/-- C17, amended: the constructor does not check the shard count. With a shard count of 0
it yields a cache without shards, on which `metrics` is 0, `keySet` is empty and a sweep of
the curator changes nothing; the zero shows only when a key is routed: `calc_index`, and
with it `set`, `get`, `exists` and `del`, divide by zero. -/
theorem zero_shards_constructed (hash : K → Nat) (id : K) (val : shared_ptr T)
    (expiration : Int) (mode : fastcache_writemode) (tv_sec : Int) :
    (new 0 : StorageCache K T) = { shards := [] } ∧
    metrics (new 0 : StorageCache K T) = 0 ∧
    keySet (new 0 : StorageCache K T) = [] ∧
    curate_sweep (new 0 : StorageCache K T) tv_sec = new 0 ∧
    calc_index hash 0 id = .error exception.division_by_zero ∧
    set hash 0 (new 0) id val expiration mode = .error exception.division_by_zero ∧
    get hash 0 (new 0 : StorageCache K T) id tv_sec = .error exception.division_by_zero ∧
    exists_ hash 0 (new 0 : StorageCache K T) id tv_sec =
      .error exception.division_by_zero ∧
    del hash 0 (new 0 : StorageCache K T) id = .error exception.division_by_zero := by
  refine ⟨rfl, rfl, rfl, rfl, rfl, rfl, rfl, rfl, rfl⟩

/-! ## The exclusive-access build -/

theorem get_MUTABLE_DATA_eq (hash : K → Nat) {FASTCACHE_SHARDSIZE : Nat}
    (c : StorageCache K T) (hN : 0 < FASTCACHE_SHARDSIZE) (id : K) (tv_sec : Int)
    (data_unique : Bool) {shard : Shard K T}
    (hs : c.shards[hash id % FASTCACHE_SHARDSIZE]? = some shard) :
    get_MUTABLE_DATA hash FASTCACHE_SHARDSIZE c id tv_sec data_unique =
      ((get_body_MUTABLE_DATA id tv_sec data_unique shard).1,
        { shards := c.shards.set (hash id % FASTCACHE_SHARDSIZE)
            (get_body_MUTABLE_DATA id tv_sec data_unique shard).2 }) := by
  have h0 : FASTCACHE_SHARDSIZE ≠ 0 := Nat.pos_iff_ne_zero.1 hN
  simp only [get_MUTABLE_DATA, calc_index, h0, if_false, hs]

/-- C18: with `FASTCACHE_MUTABLE_DATA` defined, `get` raises `StorageCacheObjectLocked`
exactly when the key is present, its entry is not expired and the stored pointer is not
unique; then the cache is unchanged. A missing key returns the empty pointer and leaves the
cache unchanged; an expired entry is erased and the empty pointer returned, whether or not
the stored pointer is unique; a live entry with a unique pointer returns its value. -/
theorem get_mutable_data_locked (hash : K → Nat) (FASTCACHE_SHARDSIZE : Nat)
    (c : StorageCache K T) (hN : 0 < FASTCACHE_SHARDSIZE)
    (hlen : c.shards.length = FASTCACHE_SHARDSIZE) (id : K) (tv_sec : Int)
    (data_unique : Bool) :
    ∃ shard, c.shards[hash id % FASTCACHE_SHARDSIZE]? = some shard ∧
      ((get_MUTABLE_DATA hash FASTCACHE_SHARDSIZE c id tv_sec data_unique).1 =
          .error exception.StorageCacheObjectLocked ↔
        ∃ item, shard.map.find id = some item ∧ item.expired tv_sec = false ∧
          data_unique = false) ∧
      ((get_MUTABLE_DATA hash FASTCACHE_SHARDSIZE c id tv_sec data_unique).1 =
          .error exception.StorageCacheObjectLocked →
        (get_MUTABLE_DATA hash FASTCACHE_SHARDSIZE c id tv_sec data_unique).2 = c) ∧
      (shard.map.find id = none →
        get_MUTABLE_DATA hash FASTCACHE_SHARDSIZE c id tv_sec data_unique = (.ok none, c)) ∧
      (∀ item, shard.map.find id = some item → item.expired tv_sec = true →
        get_MUTABLE_DATA hash FASTCACHE_SHARDSIZE c id tv_sec data_unique =
          (.ok none, { shards := c.shards.set (hash id % FASTCACHE_SHARDSIZE)
                                   { map := shard.map.filter (fun e => decide (e.1 ≠ id)) } })) ∧
      (∀ item, shard.map.find id = some item → item.expired tv_sec = false →
        data_unique = true →
        get_MUTABLE_DATA hash FASTCACHE_SHARDSIZE c id tv_sec data_unique =
          (.ok item.data, c)) := by
  obtain ⟨shard, hs⟩ := shard_at hash c hN hlen id
  have heq := get_MUTABLE_DATA_eq hash c hN id tv_sec data_unique hs
  refine ⟨shard, hs, ?_, ?_, ?_, ?_, ?_⟩
  · rw [heq]
    cases hf : StdMap.find shard.map id with
    | none => simp [get_body_MUTABLE_DATA, StdMap.at_, hf]
    | some item =>
      cases he : item.expired tv_sec <;> cases data_unique <;>
        simp [get_body_MUTABLE_DATA, StdMap.at_, hf, he]
  · rw [heq]
    cases hf : StdMap.find shard.map id with
    | none => simp [get_body_MUTABLE_DATA, StdMap.at_, hf]
    | some item =>
      cases he : item.expired tv_sec <;> cases data_unique <;>
        simp [get_body_MUTABLE_DATA, StdMap.at_, hf, he, set_shard_self hs]
  · intro hf
    rw [heq]
    simp [get_body_MUTABLE_DATA, StdMap.at_, hf, set_shard_self hs]
  · intro item hf he
    rw [heq]
    simp only [get_body_MUTABLE_DATA, StdMap.at_, hf, he, if_true, StdMap.erase]
  · intro item hf he hu
    rw [heq]
    simp [get_body_MUTABLE_DATA, StdMap.at_, hf, he, hu, set_shard_self hs]

/-- C18 at the concrete cache: key 5 is live at second 50 and its pointer is not unique. -/
theorem get_mutable_data_locked_witness :
    (0 < 256 ∧ demo_cache.shards.length = 256) ∧
    ∃ shard, demo_cache.shards[demo_hash 5 % 256]? = some shard ∧
      ((get_MUTABLE_DATA demo_hash 256 demo_cache 5 50 false).1 =
          .error exception.StorageCacheObjectLocked ↔
        ∃ item, shard.map.find 5 = some item ∧ item.expired 50 = false ∧ false = false) ∧
      ((get_MUTABLE_DATA demo_hash 256 demo_cache 5 50 false).1 =
          .error exception.StorageCacheObjectLocked →
        (get_MUTABLE_DATA demo_hash 256 demo_cache 5 50 false).2 = demo_cache) ∧
      (shard.map.find 5 = none →
        get_MUTABLE_DATA demo_hash 256 demo_cache 5 50 false = (.ok none, demo_cache)) ∧
      (∀ item, shard.map.find 5 = some item → item.expired 50 = true →
        get_MUTABLE_DATA demo_hash 256 demo_cache 5 50 false =
          (.ok none, { shards := demo_cache.shards.set (demo_hash 5 % 256)
                                   { map := shard.map.filter (fun e => decide (e.1 ≠ 5)) } })) ∧
      (∀ item, shard.map.find 5 = some item → item.expired 50 = false →
        false = true →
        get_MUTABLE_DATA demo_hash 256 demo_cache 5 50 false = (.ok item.data, demo_cache)) :=
  ⟨⟨by decide, demo_length⟩,
    get_mutable_data_locked demo_hash 256 demo_cache (by decide) demo_length 5 50 false⟩

/-! ## Invariants of the reachable caches -/

theorem run_all_induct_ok (hash : K → Nat) (FASTCACHE_SHARDSIZE : Nat)
    (P : StorageCache K T → Prop)
    (hstep : ∀ (c : StorageCache K T) (op : Op K T) (c1 : StorageCache K T), P c →
      op.run hash FASTCACHE_SHARDSIZE c = .ok c1 → P c1) :
    ∀ (ops : List (Op K T)) (c c1 : StorageCache K T), P c →
      run_all hash FASTCACHE_SHARDSIZE ops c = .ok c1 → P c1 := by
  intro ops
  induction ops with
  | nil =>
    intro c c1 hc h
    simp only [run_all, Except.ok.injEq] at h
    exact h ▸ hc
  | cons op rest ih =>
    intro c c1 hc h
    cases hop : op.run hash FASTCACHE_SHARDSIZE c with
    | error e => simp [run_all, hop] at h
    | ok c2 =>
      simp only [run_all, hop] at h
      exact ih c2 c1 (hstep c op c2 hc hop) h

theorem run_zero_shards (hash : K → Nat) (c : StorageCache K T) (op : Op K T)
    (c1 : StorageCache K T) (hc : c.shards = []) (h : op.run hash 0 c = .ok c1) :
    c1.shards = [] := by
  cases op with
  | set id val expiration mode => simp [Op.run, set, locked, calc_index] at h
  | get id tv_sec => simp [Op.run, get, locked, calc_index] at h
  | exists_ id tv_sec => simp [Op.run, exists_, get, locked, calc_index] at h
  | del id => simp [Op.run, del, locked, calc_index] at h
  | keySet =>
    simp only [Op.run, Except.ok.injEq] at h
    exact h ▸ hc
  | metrics =>
    simp only [Op.run, Except.ok.injEq] at h
    exact h ▸ hc
  | curate_sweep tv_sec =>
    simp only [Op.run, Except.ok.injEq] at h
    rw [← h]
    simp [curate_sweep, hc]
  | curate_shard index tv_sec =>
    simp only [Op.run, Except.ok.injEq] at h
    rw [← h]
    simp [curate_shard, hc]

theorem routed_of_reachable_any (hash : K → Nat) (FASTCACHE_SHARDSIZE : Nat)
    {c : StorageCache K T} (hr : Reachable hash FASTCACHE_SHARDSIZE c) :
    Routed hash FASTCACHE_SHARDSIZE c := by
  by_cases hN : FASTCACHE_SHARDSIZE = 0
  · subst hN
    obtain ⟨ops, hops⟩ := hr
    have hnil : c.shards = [] :=
      run_all_induct_ok hash 0 (fun c => c.shards = [])
        (fun c op c1 hc h => run_zero_shards hash c op c1 hc h) ops (new 0) c rfl hops
    refine ⟨by simp [hnil], ?_⟩
    intro i shard hs
    simp [hnil] at hs
  · exact routed_of_reachable hash (Nat.pos_of_ne_zero hN) hr

/-- C21: routing invariant. In every cache reachable from the freshly constructed one by
`set`, `get`, `exists`, `del`, `keySet`, `metrics` and steps of the curator, the number of
shards is `FASTCACHE_SHARDSIZE`, every key stored in the map of shard `i` has `calc_index`
`i`, no key is stored in two shards, and no map holds a key twice. -/
theorem routing_invariant (hash : K → Nat) (FASTCACHE_SHARDSIZE : Nat) (c : StorageCache K T)
    (hr : Reachable hash FASTCACHE_SHARDSIZE c) :
    c.shards.length = FASTCACHE_SHARDSIZE ∧
    (∀ (i : Nat) (shard : Shard K T), c.shards[i]? = some shard →
      ∀ e ∈ shard.map, calc_index hash FASTCACHE_SHARDSIZE e.1 = .ok i) ∧
    (∀ (i j : Nat) (si sj : Shard K T) (k : K),
      c.shards[i]? = some si → c.shards[j]? = some sj →
      (∃ item, (k, item) ∈ si.map) → (∃ item, (k, item) ∈ sj.map) → i = j) ∧
    (∀ shard ∈ c.shards, shard.map.unique) := by
  have hc := routed_of_reachable_any hash FASTCACHE_SHARDSIZE hr
  refine ⟨hc.1, ?_, ?_, ?_⟩
  · intro i shard hs e he
    have hi : i < c.shards.length := (List.getElem?_eq_some.1 hs).1
    have hN : FASTCACHE_SHARDSIZE ≠ 0 := by
      intro h0
      rw [hc.1, h0] at hi
      exact Nat.not_lt_zero _ hi
    simp only [calc_index, hN, if_false, (hc.2 i shard hs).2 e he]
  · intro i j si sj k hi hj hki hkj
    obtain ⟨item1, h1⟩ := hki
    obtain ⟨item2, h2⟩ := hkj
    have e1 := (hc.2 i si hi).2 _ h1
    have e2 := (hc.2 j sj hj).2 _ h2
    simp only at e1 e2
    omega
  · intro shard hshard
    obtain ⟨i, hi⟩ := List.mem_iff_getElem?.1 hshard
    exact (hc.2 i shard hi).1

/-- C21 at the concrete cache, which two calls of `set` reach from the fresh cache. -/
theorem routing_invariant_witness :
    Reachable demo_hash 256 demo_cache ∧
    (demo_cache.shards.length = 256 ∧
    (∀ (i : Nat) (shard : Shard Nat Nat), demo_cache.shards[i]? = some shard →
      ∀ e ∈ shard.map, calc_index demo_hash 256 e.1 = .ok i) ∧
    (∀ (i j : Nat) (si sj : Shard Nat Nat) (k : Nat),
      demo_cache.shards[i]? = some si → demo_cache.shards[j]? = some sj →
      (∃ item, (k, item) ∈ si.map) → (∃ item, (k, item) ∈ sj.map) → i = j) ∧
    (∀ shard ∈ demo_cache.shards, shard.map.unique)) :=
  ⟨demo_reachable, routing_invariant demo_hash 256 demo_cache demo_reachable⟩

/-! ## Frame and size -/

theorem locked_frame {α : Type} (hash : K → Nat) {FASTCACHE_SHARDSIZE : Nat}
    (c : StorageCache K T) (hN : 0 < FASTCACHE_SHARDSIZE) (k k2 : K) {shard : Shard K T}
    (hs : c.shards[hash k % FASTCACHE_SHARDSIZE]? = some shard)
    (body : Shard K T → α × Shard K T)
    (hfind : StdMap.find (body shard).2.map k2 = StdMap.find shard.map k2) :
    ∃ r c1, locked hash FASTCACHE_SHARDSIZE c k body = .ok (r, c1) ∧
      stored hash FASTCACHE_SHARDSIZE c1 k2 = stored hash FASTCACHE_SHARDSIZE c k2 ∧
      ∀ j : Nat, j ≠ hash k % FASTCACHE_SHARDSIZE → c1.shards[j]? = c.shards[j]? := by
  refine ⟨_, _, locked_eq hash c hN k hs body, ?_, ?_⟩
  · exact stored_set_shard_same hash FASTCACHE_SHARDSIZE c hs _ k2 (fun _ => hfind)
  · intro j hj
    exact List.getElem?_set_ne (fun h => hj h.symm)

/-- C22: frame. For different keys `k` and `k2`, every `set(k, ...)`, in any write mode,
`get(k)`, `exists(k)` and `del(k)` returns, leaves the entry stored for `k2` (presence, value
and expiration) as it was, also when both keys route to one shard, and leaves every shard
other than the shard of `k` as it was. -/
theorem frame_other_keys (hash : K → Nat) (FASTCACHE_SHARDSIZE : Nat) (c : StorageCache K T)
    (hN : 0 < FASTCACHE_SHARDSIZE) (hlen : c.shards.length = FASTCACHE_SHARDSIZE)
    (k k2 : K) (hne : k2 ≠ k) (val : shared_ptr T) (expiration : Int)
    (mode : fastcache_writemode) (tv_sec : Int) :
    (∃ r c1, set hash FASTCACHE_SHARDSIZE c k val expiration mode = .ok (r, c1) ∧
      stored hash FASTCACHE_SHARDSIZE c1 k2 = stored hash FASTCACHE_SHARDSIZE c k2 ∧
      ∀ j : Nat, j ≠ hash k % FASTCACHE_SHARDSIZE → c1.shards[j]? = c.shards[j]?) ∧
    (∃ r c1, get hash FASTCACHE_SHARDSIZE c k tv_sec = .ok (r, c1) ∧
      stored hash FASTCACHE_SHARDSIZE c1 k2 = stored hash FASTCACHE_SHARDSIZE c k2 ∧
      ∀ j : Nat, j ≠ hash k % FASTCACHE_SHARDSIZE → c1.shards[j]? = c.shards[j]?) ∧
    (∃ r c1, exists_ hash FASTCACHE_SHARDSIZE c k tv_sec = .ok (r, c1) ∧
      stored hash FASTCACHE_SHARDSIZE c1 k2 = stored hash FASTCACHE_SHARDSIZE c k2 ∧
      ∀ j : Nat, j ≠ hash k % FASTCACHE_SHARDSIZE → c1.shards[j]? = c.shards[j]?) ∧
    (∃ r c1, del hash FASTCACHE_SHARDSIZE c k = .ok (r, c1) ∧
      stored hash FASTCACHE_SHARDSIZE c1 k2 = stored hash FASTCACHE_SHARDSIZE c k2 ∧
      ∀ j : Nat, j ≠ hash k % FASTCACHE_SHARDSIZE → c1.shards[j]? = c.shards[j]?) := by
  obtain ⟨shard, hs⟩ := shard_at hash c hN hlen k
  refine ⟨?_, ?_, ?_, ?_⟩
  · exact locked_frame hash c hN k k2 hs _ (set_body_find_other k _ mode shard hne)
  · exact locked_frame hash c hN k k2 hs _ (get_body_find_other k tv_sec shard hne)
  · obtain ⟨r, c1, hget, hst, hsh⟩ := locked_frame hash c hN k k2 hs (get_body k tv_sec)
      (get_body_find_other k tv_sec shard hne)
    refine ⟨if r.isSome then 1 else 0, c1, ?_, hst, hsh⟩
    have hget2 : get hash FASTCACHE_SHARDSIZE c k tv_sec = .ok (r, c1) := hget
    simp only [exists_, hget2]
  · exact locked_frame hash c hN k k2 hs _ (del_body_find_other k shard hne)

/-- C22 at the concrete cache: the calls are on key 5, the other key is 261, of the same
shard. -/
theorem frame_other_keys_witness :
    (0 < 256 ∧ demo_cache.shards.length = 256 ∧ (261 : Nat) ≠ 5) ∧
    ((∃ r c1, set demo_hash 256 demo_cache 5 (some 99) 7 FASTCACHE_WRITEMODE_ONLY_WRITE_IF_SET = .ok (r, c1) ∧
      stored demo_hash 256 c1 261 = stored demo_hash 256 demo_cache 261 ∧
      ∀ j : Nat, j ≠ demo_hash 5 % 256 → c1.shards[j]? = demo_cache.shards[j]?) ∧
    (∃ r c1, get demo_hash 256 demo_cache 5 1000 = .ok (r, c1) ∧
      stored demo_hash 256 c1 261 = stored demo_hash 256 demo_cache 261 ∧
      ∀ j : Nat, j ≠ demo_hash 5 % 256 → c1.shards[j]? = demo_cache.shards[j]?) ∧
    (∃ r c1, exists_ demo_hash 256 demo_cache 5 1000 = .ok (r, c1) ∧
      stored demo_hash 256 c1 261 = stored demo_hash 256 demo_cache 261 ∧
      ∀ j : Nat, j ≠ demo_hash 5 % 256 → c1.shards[j]? = demo_cache.shards[j]?) ∧
    (∃ r c1, del demo_hash 256 demo_cache 5 = .ok (r, c1) ∧
      stored demo_hash 256 c1 261 = stored demo_hash 256 demo_cache 261 ∧
      ∀ j : Nat, j ≠ demo_hash 5 % 256 → c1.shards[j]? = demo_cache.shards[j]?)) :=
  ⟨⟨by decide, demo_length, by decide⟩,
    frame_other_keys demo_hash 256 demo_cache (by decide) demo_length 5 261 (by decide)
      (some 99) 7 FASTCACHE_WRITEMODE_ONLY_WRITE_IF_SET 1000⟩

theorem set_outcome (hash : K → Nat) {FASTCACHE_SHARDSIZE : Nat} (c : StorageCache K T)
    (hN : 0 < FASTCACHE_SHARDSIZE) (id : K) (val : shared_ptr T) (expiration : Int)
    (mode : fastcache_writemode) {shard : Shard K T}
    (hs : c.shards[hash id % FASTCACHE_SHARDSIZE]? = some shard) :
    set hash FASTCACHE_SHARDSIZE c id val expiration mode = .ok (0, c) ∨
    set hash FASTCACHE_SHARDSIZE c id val expiration mode =
      .ok (1, { shards := c.shards.set (hash id % FASTCACHE_SHARDSIZE)
                  { map := StdMap.place id { data := val, expiration := expiration }
                             (shard.map.filter (fun e => decide (e.1 ≠ id))) } }) := by
  have key : set_body id { data := val, expiration := expiration } mode shard = (0, shard) ∨
      set_body id { data := val, expiration := expiration } mode shard =
        (1, { map := StdMap.place id { data := val, expiration := expiration }
                       (shard.map.filter (fun e => decide (e.1 ≠ id))) }) := by
    cases mode with
    | FASTCACHE_WRITEMODE_WRITE_ALWAYS => right; exact set_body_always id _ shard
    | FASTCACHE_WRITEMODE_ONLY_WRITE_IF_SET =>
      cases hf : StdMap.find shard.map id with
      | none => left; exact set_body_if_set_absent id _ hf
      | some old => right; exact set_body_if_set_present id _ hf
    | FASTCACHE_WRITEMODE_ONLY_WRITE_IF_NOT_SET =>
      cases hf : StdMap.find shard.map id with
      | none =>
        right
        rw [set_body_if_not_set_absent id _ hf, StdMap.filter_ne_of_find_none hf]
      | some old => left; exact set_body_if_not_set_present id _ hf
  rcases key with hb | hb
  · left
    rw [set, locked_eq_same hash c hN id hs _ (by rw [hb]), hb]
  · right
    rw [set, locked_eq hash c hN id hs, hb]

theorem length_filter_split (m : StdMap K T) (id : K) :
    (m.filter (fun e => decide (e.1 = id))).length +
      (m.filter (fun e => decide (e.1 ≠ id))).length = m.length := by
  induction m with
  | nil => rfl
  | cons a rest ih =>
    by_cases h : a.1 = id
    · rw [List.filter_cons_of_pos (by simpa using h), List.filter_cons_of_neg (by simpa using h)]
      simp only [List.length_cons]
      omega
    · rw [List.filter_cons_of_neg (by simpa using h), List.filter_cons_of_pos (by simpa using h)]
      simp only [List.length_cons]
      omega

/-- C23: size accounting of `set`. In a cache whose maps hold every key at most once, `set`
in any write mode returns 0 or 1; `metrics` afterwards is `metrics` before plus 1 when the
key was absent and `set` returned 1, and is `metrics` before in every other case; it never
decreases; and afterwards every map still holds every key at most once. -/
theorem set_size_accounting (hash : K → Nat) (FASTCACHE_SHARDSIZE : Nat)
    (c : StorageCache K T) (hN : 0 < FASTCACHE_SHARDSIZE)
    (hlen : c.shards.length = FASTCACHE_SHARDSIZE)
    (hu : ∀ shard ∈ c.shards, shard.map.unique)
    (id : K) (val : shared_ptr T) (expiration : Int) (mode : fastcache_writemode) :
    ∃ r c1, set hash FASTCACHE_SHARDSIZE c id val expiration mode = .ok (r, c1) ∧
      (r = 0 ∨ r = 1) ∧
      (stored hash FASTCACHE_SHARDSIZE c id = none → r = 1 → metrics c1 = metrics c + 1) ∧
      (¬ (stored hash FASTCACHE_SHARDSIZE c id = none ∧ r = 1) → metrics c1 = metrics c) ∧
      metrics c ≤ metrics c1 ∧
      (∀ shard ∈ c1.shards, shard.map.unique) := by
  obtain ⟨shard, hs⟩ := shard_at hash c hN hlen id
  have hmem : shard ∈ c.shards := List.mem_iff_getElem?.2 ⟨_, hs⟩
  rcases set_outcome hash c hN id val expiration mode hs with h | h
  · refine ⟨0, c, h, Or.inl rfl, ?_, ?_, Nat.le_refl _, hu⟩
    · intro _ h1; exact absurd h1 (by decide)
    · intro _; rfl
  · have hm := metrics_set_shard c hs
      { map := StdMap.place id { data := val, expiration := expiration }
                 (shard.map.filter (fun e => decide (e.1 ≠ id))) }
    simp only [length_place] at hm
    have hsplit := length_filter_split shard.map id
    have hcount := StdMap.length_filter_eq_of_unique (hu shard hmem) id
    rw [find_of_stored hs] at hcount
    refine ⟨1, _, h, Or.inr rfl, ?_, ?_, ?_, ?_⟩
    · intro habs _
      rw [habs] at hcount
      simp only [Option.isSome_none, Bool.false_eq_true, if_false] at hcount
      omega
    · intro hnot
      have hpres : stored hash FASTCACHE_SHARDSIZE c id ≠ none := fun h0 => hnot ⟨h0, rfl⟩
      obtain ⟨item, hitem⟩ := Option.ne_none_iff_exists'.1 hpres
      rw [hitem] at hcount
      simp only [Option.isSome_some, if_true] at hcount
      omega
    · cases hst : stored hash FASTCACHE_SHARDSIZE c id with
      | none =>
        rw [hst] at hcount
        simp only [Option.isSome_none, Bool.false_eq_true, if_false] at hcount
        omega
      | some item =>
        rw [hst] at hcount
        simp only [Option.isSome_some, if_true] at hcount
        omega
    · intro shard1 hshard1
      rcases List.mem_or_eq_of_mem_set hshard1 with h1 | h1
      · exact hu shard1 h1
      · rw [h1]
        exact StdMap.unique_place _ (StdMap.unique_filter (hu shard hmem) _)
          (StdMap.find_filter_ne_self _ _)

/-- C23 at the concrete cache: key 7, absent, is set in mode WRITE_ALWAYS. -/
theorem set_size_accounting_witness :
    (0 < 256 ∧ demo_cache.shards.length = 256 ∧
      ∀ shard ∈ demo_cache.shards, shard.map.unique) ∧
    ∃ r c1, set demo_hash 256 demo_cache 7 (some 70) 0 FASTCACHE_WRITEMODE_WRITE_ALWAYS
        = .ok (r, c1) ∧
      (r = 0 ∨ r = 1) ∧
      (stored demo_hash 256 demo_cache 7 = none → r = 1 →
        metrics c1 = metrics demo_cache + 1) ∧
      (¬ (stored demo_hash 256 demo_cache 7 = none ∧ r = 1) →
        metrics c1 = metrics demo_cache) ∧
      metrics demo_cache ≤ metrics c1 ∧
      (∀ shard ∈ c1.shards, shard.map.unique) :=
  ⟨⟨by decide, demo_length, demo_unique⟩,
    set_size_accounting demo_hash 256 demo_cache (by decide) demo_length demo_unique 7
      (some 70) 0 FASTCACHE_WRITEMODE_WRITE_ALWAYS⟩

end StorageCache

end Storage
